import Mathlib

/-!
Verification of the power-pto backend core against its specification.

The definitions below are a shallow embedding of the Python services in
`src/backend/app/services/` (request.py, balance.py, accrual.py,
carryover.py, duration.py, policy.py).  Machine integers are modelled as
`Int` (Python ints are unbounded), civil dates as proleptic-Gregorian
dates with Python's `date.toordinal` arithmetic, UUIDs as opaque `Nat`
identifiers, and fallible service calls as `Except AppError`.
-/

namespace PowerPTO

/-- Application-level error carrying an HTTP status code
(`app/exceptions.py`: `AppError(message, status_code)`). -/
structure AppError where
  message : String
  status_code : Nat
deriving Repr, DecidableEq

/-- Ledger entry types (`app/models/enums.py`: `LedgerEntryType`). -/
inductive EntryType where
  | ACCRUAL | HOLD | HOLD_RELEASE | USAGE | ADJUSTMENT | EXPIRATION | CARRYOVER
deriving Repr, DecidableEq

/-- Ledger source types (`app/models/enums.py`: `LedgerSourceType`). -/
inductive SourceType where
  | REQUEST | PAYROLL | ADMIN | SYSTEM
deriving Repr, DecidableEq

/-- Balance snapshot row for one `(company, employee, policy)` triple
(`app/models/balance.py`: `TimeOffBalanceSnapshot`).  The key columns are
kept outside the structure; all mutating services address a snapshot row
through the key and only read or write these fields. -/
structure Snapshot where
  accrued_minutes : Int
  used_minutes : Int
  held_minutes : Int
  available_minutes : Int
  version : Int
deriving Repr, DecidableEq

/-- The snapshot field equation I1 / P1 of the spec:
`available = accrued − used − held`. -/
def snapInv (s : Snapshot) : Prop :=
  s.available_minutes = s.accrued_minutes - s.used_minutes - s.held_minutes

instance (s : Snapshot) : Decidable (snapInv s) := by
  unfold snapInv; infer_instance

/-- Snapshot update performed by `submit_request`
(`services/request.py:314-316`): `held += requested`, recompute
`available`, bump `version`. -/
def submitSnapshotUpdate (requested : Int) (s : Snapshot) : Snapshot :=
  let held := s.held_minutes + requested
  { s with
    held_minutes := held
    available_minutes := s.accrued_minutes - s.used_minutes - held
    version := s.version + 1 }

/-- Snapshot update performed by `approve_request`
(`services/request.py:399-402`): `held -= requested`, `used += requested`,
recompute `available`, bump `version`. -/
def approveSnapshotUpdate (requested : Int) (s : Snapshot) : Snapshot :=
  let held := s.held_minutes - requested
  let used := s.used_minutes + requested
  { s with
    held_minutes := held
    used_minutes := used
    available_minutes := s.accrued_minutes - used - held
    version := s.version + 1 }

/-- Snapshot update performed by `_release_hold` for deny and cancel
(`services/request.py:163-165`): `held -= requested`, recompute
`available`, bump `version`. -/
def releaseHoldSnapshotUpdate (requested : Int) (s : Snapshot) : Snapshot :=
  let held := s.held_minutes - requested
  { s with
    held_minutes := held
    available_minutes := s.accrued_minutes - s.used_minutes - held
    version := s.version + 1 }

/-- Snapshot update performed by `create_adjustment`
(`services/balance.py:366-368`): `accrued += amount`, recompute
`available`, bump `version`. -/
def adjustmentSnapshotUpdate (amount : Int) (s : Snapshot) : Snapshot :=
  let accrued := s.accrued_minutes + amount
  { s with
    accrued_minutes := accrued
    available_minutes := accrued - s.used_minutes - s.held_minutes
    version := s.version + 1 }

/-- Snapshot update performed by `_post_accrual_entry`
(`services/accrual.py:448-450`): `accrued += capped_amount`, recompute
`available`, bump `version`. -/
def accrualSnapshotUpdate (capped_amount : Int) (s : Snapshot) : Snapshot :=
  let accrued := s.accrued_minutes + capped_amount
  { s with
    accrued_minutes := accrued
    available_minutes := accrued - s.used_minutes - s.held_minutes
    version := s.version + 1 }

/-- Snapshot update performed when an EXPIRATION entry is posted, shared
by the carryover-excess path (`services/carryover.py:238-242`), the
calendar-date path (`services/carryover.py:403-405`) and the
post-carryover path (`services/carryover.py:483-485`):
`accrued -= expire_amount`, recompute `available`, bump `version`. -/
def expirationSnapshotUpdate (expire_amount : Int) (s : Snapshot) : Snapshot :=
  let accrued := s.accrued_minutes - expire_amount
  { s with
    accrued_minutes := accrued
    available_minutes := accrued - s.used_minutes - s.held_minutes
    version := s.version + 1 }

/-- Lazy snapshot creation from recomputed ledger totals
(`services/balance.py:157-166`, `_get_or_create_snapshot_for_update`):
the new row is inserted with `available = accrued − used − held` and
`version = 1`. -/
def snapshotFromLedgerTotals (accrued used held : Int) : Snapshot :=
  { accrued_minutes := accrued
    used_minutes := used
    held_minutes := held
    available_minutes := accrued - used - held
    version := 1 }

/-- One committed snapshot mutation of the system, tagged by the service
operation that performs it.  Each constructor carries the integer amount
the corresponding code path applies to the locked snapshot row. -/
inductive MutOp where
  | submit (requested : Int)
  | approve (requested : Int)
  | deny (requested : Int)
  | cancel (requested : Int)
  | adjust (amount : Int)
  | accrualPost (capped_amount : Int)
  | carryoverExcessExpire (expire_amount : Int)
  | calendarExpire (available : Int)
  | carryoverExpiry (expire_amount : Int)
  | lazyCreate (accrued used held : Int)
deriving Repr, DecidableEq

/-- Effect of one committed mutating operation on the affected snapshot
row, dispatching to the per-service update translated from the source. -/
def applyMutOp (op : MutOp) (s : Snapshot) : Snapshot :=
  match op with
  | .submit r => submitSnapshotUpdate r s
  | .approve r => approveSnapshotUpdate r s
  | .deny r => releaseHoldSnapshotUpdate r s
  | .cancel r => releaseHoldSnapshotUpdate r s
  | .adjust a => adjustmentSnapshotUpdate a s
  | .accrualPost a => accrualSnapshotUpdate a s
  | .carryoverExcessExpire e => expirationSnapshotUpdate e s
  | .calendarExpire a => expirationSnapshotUpdate a s
  | .carryoverExpiry e => expirationSnapshotUpdate e s
  | .lazyCreate a u h => snapshotFromLedgerTotals a u h

/-- Balance-gate-relevant fields of the parsed policy settings as consumed
by `create_adjustment` and `submit_request` (`schemas/policy.py`):
`is_unlimited` is `settings.type == "UNLIMITED"`, and `allow_negative` /
`negative_limit_minutes` are read with `getattr(..., default)`. -/
structure GateSettings where
  is_unlimited : Bool
  allow_negative : Bool
  negative_limit_minutes : Option Int
deriving Repr, DecidableEq

/-- Second clause of the balance gate
(`services/balance.py:342`, `services/request.py:259`):
`allow_negative and negative_limit is not None and new_available < -negative_limit`. -/
def negativeLimitExceeded (allow_negative : Bool) (negative_limit : Option Int)
    (new_available : Int) : Bool :=
  match negative_limit with
  | none => false
  | some limit => allow_negative && decide (new_available < -limit)

/-- Bank-cap clamp for ACCRUAL postings
(`services/accrual.py:208-224`, `_apply_bank_cap`). -/
def apply_bank_cap (current_accrued accrual_amount : Int)
    (bank_cap_minutes : Option Int) : Int :=
  match bank_cap_minutes with
  | none => accrual_amount
  | some cap =>
    let headroom := cap - current_accrued
    if headroom ≤ 0 then 0
    else min accrual_amount headroom

/-- Admin adjustment, steps 3-7 of `create_adjustment`
(`services/balance.py:325-368`), after the active-assignment and
current-version preconditions have been resolved.  The negative-balance
gate runs only for non-unlimited policies and only when
`amount_minutes < 0`; on success the full signed amount is posted as an
ADJUSTMENT and the snapshot updated. -/
def create_adjustment (settings : GateSettings) (snapshot : Snapshot)
    (amount_minutes : Int) : Except AppError (Snapshot × Int) :=
  if settings.is_unlimited = false ∧ amount_minutes < 0 then
    let new_available := snapshot.available_minutes + amount_minutes
    if settings.allow_negative = false ∧ new_available < 0 then
      .error ⟨"Insufficient balance for this adjustment", 400⟩
    else if negativeLimitExceeded settings.allow_negative
        settings.negative_limit_minutes new_available then
      .error ⟨"Adjustment would exceed negative balance limit", 400⟩
    else
      .ok (adjustmentSnapshotUpdate amount_minutes snapshot, amount_minutes)
  else
    .ok (adjustmentSnapshotUpdate amount_minutes snapshot, amount_minutes)

/-- Metadata fields of a ledger entry that are read back by any service.
Only the CARRYOVER marker metadata is ever consulted
(`services/carryover.py:447`: `marker.metadata_json.get("carried_minutes", 0)`);
the remaining metadata keys are write-only. -/
structure EntryMeta where
  carried_minutes : Int
deriving Repr, DecidableEq

/-- Ledger entry row (`app/models/ledger.py`: `TimeOffLedgerEntry`),
restricted to the columns the core services read.  `metadata_json = none`
models a SQL NULL metadata document. -/
structure LedgerEntry where
  company_id : Nat
  employee_id : Nat
  policy_id : Nat
  entry_type : EntryType
  amount_minutes : Int
  source_type : SourceType
  source_id : String
  metadata_json : Option EntryMeta
deriving Repr, DecidableEq

/-- Request row (`app/models/request.py`: `TimeOffRequest`), restricted to
the columns the submit-conflict path reads. -/
structure StoredRequest where
  id : Nat
  company_id : Nat
  employee_id : Nat
  policy_id : Nat
  requested_minutes : Int
  idempotency_key : Option String
deriving Repr, DecidableEq

/-- Database state touched by the insert phase of `submit_request`
(steps 8-10, `services/request.py:265-316`): the request table, the
ledger, and the locked snapshot row of the affected triple. -/
structure SubmitState where
  requests : List StoredRequest
  ledger : List LedgerEntry
  snapshot : Snapshot
deriving Repr, DecidableEq

/-- Whether inserting a request with the given key violates the unique
constraint `uq_request_idempotency` on
`(company_id, employee_id, idempotency_key)` (`app/models/request.py`).
SQL unique constraints treat NULL keys as distinct, so a keyless insert
never conflicts. -/
def requestKeyConflict (requests : List StoredRequest) (cid eid : Nat)
    (key : Option String) : Bool :=
  match key with
  | none => false
  | some k =>
    requests.any fun r =>
      decide (r.company_id = cid ∧ r.employee_id = eid ∧ r.idempotency_key = some k)

/-- Lookup of the already-stored request after an idempotency-key
collision (`services/request.py:287-294`). -/
def findExistingRequest (requests : List StoredRequest) (cid eid : Nat)
    (k : String) : Option StoredRequest :=
  requests.find? fun r =>
    decide (r.company_id = cid ∧ r.employee_id = eid ∧ r.idempotency_key = some k)

/-- Exception handler of the request-insert flush
(`services/request.py:283-297`): after the rollback, a supplied key is
looked up and the stored request returned; otherwise the submit fails
with Conflict 409. -/
def handleSubmitIntegrityError (requests : List StoredRequest) (cid eid : Nat)
    (key : Option String) : Except AppError StoredRequest :=
  match key with
  | some k =>
    match findExistingRequest requests cid eid k with
    | some existing => .ok existing
    | none => .error ⟨"Duplicate request", 409⟩
  | none => .error ⟨"Duplicate request", 409⟩

/-- The insert phase of `submit_request` (steps 8-10,
`services/request.py:265-316`): flush the new SUBMITTED request row; on
an idempotency-key collision the session is rolled back (state unchanged)
and the stored request is returned, else the HOLD entry is posted and the
snapshot updated. -/
def submit_insert (st : SubmitState) (new_req : StoredRequest) :
    Except AppError (StoredRequest × SubmitState) :=
  if requestKeyConflict st.requests new_req.company_id new_req.employee_id
      new_req.idempotency_key then
    match handleSubmitIntegrityError st.requests new_req.company_id
        new_req.employee_id new_req.idempotency_key with
    | .ok existing => .ok (existing, st)
    | .error e => .error e
  else
    let hold : LedgerEntry :=
      { company_id := new_req.company_id
        employee_id := new_req.employee_id
        policy_id := new_req.policy_id
        entry_type := .HOLD
        amount_minutes := -new_req.requested_minutes
        source_type := .REQUEST
        source_id := toString new_req.id
        metadata_json := none }
    .ok (new_req,
      { requests := st.requests ++ [new_req]
        ledger := st.ledger ++ [hold]
        snapshot := submitSnapshotUpdate new_req.requested_minutes st.snapshot })

/-- Gregorian leap-year rule, as used by Python's `calendar` and
`datetime` modules. -/
def isLeapYear (y : Nat) : Bool :=
  (y % 4 = 0 && y % 100 ≠ 0) || y % 400 = 0

/-- Number of days of month `m` in year `y`
(Python `calendar.monthrange(y, m)[1]`). -/
def daysInMonth (y m : Nat) : Nat :=
  if m = 1 then 31
  else if m = 2 then (if isLeapYear y then 29 else 28)
  else if m = 3 then 31
  else if m = 4 then 30
  else if m = 5 then 31
  else if m = 6 then 30
  else if m = 7 then 31
  else if m = 8 then 31
  else if m = 9 then 30
  else if m = 10 then 31
  else if m = 11 then 30
  else 31

/-- Days in year `y` strictly before month `m`. -/
def daysBeforeMonth (y m : Nat) : Nat :=
  (List.range (m - 1)).foldl (fun acc i => acc + daysInMonth y (i + 1)) 0

/-- Days strictly before January 1 of year `y` in the proleptic Gregorian
calendar (day 1 = January 1 of year 1, as in Python `date.toordinal`). -/
def daysBeforeYear (y : Nat) : Nat :=
  365 * (y - 1) + (y - 1) / 4 - (y - 1) / 100 + (y - 1) / 400

/-- Civil date (Python `datetime.date`). -/
structure Date where
  year : Nat
  month : Nat
  day : Nat
deriving Repr, DecidableEq

/-- Python `date.toordinal`: the 1-based day count from 0001-01-01.
Python date comparison and `timedelta` subtraction coincide with
comparison and subtraction of ordinals. -/
def Date.toOrdinal (d : Date) : Nat :=
  daysBeforeYear d.year + daysBeforeMonth d.year d.month + d.day

/-- Policy version row (`app/models/policy.py`: `TimeOffPolicyVersion`),
restricted to the columns the versioning logic reads.  The database
enforces uniqueness of `(policy_id, version)`. -/
structure PolicyVersion where
  version : Nat
  effective_from : Date
  effective_to : Option Date
deriving Repr, DecidableEq

/-- Result of `ORDER BY version DESC LIMIT 1` over a list of version
rows: an element with the maximal `version` number. -/
def pickCurrent : List PolicyVersion → Option PolicyVersion
  | [] => none
  | v :: rest =>
    match pickCurrent rest with
    | none => some v
    | some b => if b.version < v.version then some v else some b

/-- The current version of a policy (`services/policy.py:301-315`,
`_get_current_version`): the row with `effective_to IS NULL`, ordered by
`version` descending, limit 1. -/
def get_current_version (versions : List PolicyVersion) : Option PolicyVersion :=
  pickCurrent (versions.filter fun v => v.effective_to.isNone)

/-- Version rows created by `create_policy`
(`services/policy.py:92-103`): a single row numbered 1 with
`effective_to = NULL`. -/
def create_policy_versions (effective_from : Date) : List PolicyVersion :=
  [⟨1, effective_from, none⟩]

/-- Version-chain effect of `update_policy`
(`services/policy.py:199-232`): `NotFound` without a current version,
`BadRequest` when the new `effective_from` precedes the current one;
otherwise the current version is end-dated to the new `effective_from`
and a new row numbered `current.version + 1` with `effective_to = NULL`
is inserted.  The end-dated row is addressed by its unique `version`
number. -/
def update_policy (versions : List PolicyVersion) (new_effective_from : Date) :
    Except AppError (List PolicyVersion) :=
  match get_current_version versions with
  | none => .error ⟨"Policy has no current version", 404⟩
  | some current =>
    if new_effective_from.toOrdinal < current.effective_from.toOrdinal then
      .error ⟨"New version effective_from must not precede current version effective_from", 400⟩
    else
      let endDated := versions.map fun v =>
        if v.version = current.version then
          { v with effective_to := some new_effective_from }
        else v
      .ok (endDated ++ [⟨current.version + 1, new_effective_from, none⟩])

/-- Database uniqueness of `(policy_id, version)` restricted to one
policy: version numbers are pairwise distinct. -/
def versionNumbersUnique (versions : List PolicyVersion) : Prop :=
  versions.Pairwise fun a b => a.version ≠ b.version

/-- Invariant P7 of the spec: exactly one version row has
`effective_to = NULL`, and it carries the maximum `version` number. -/
def uniqueCurrentMax (versions : List PolicyVersion) : Prop :=
  ∃ v ∈ versions, v.effective_to = none ∧
    (∀ w ∈ versions, w.effective_to = none → w = v) ∧
    ∀ w ∈ versions, w.version ≤ v.version

/-- Python `datetime` value as consumed by the duration pipeline:
`wall_minutes` is the wall-clock reading in minutes and `tz_offset` the
attached timezone, modelled by its fixed UTC offset in minutes
(`zoneinfo.ZoneInfo` reduced to a fixed offset — the claims concern which
zone is applied, not DST transitions).  `tz_offset = none` models a naive
datetime. -/
structure PyDateTime where
  wall_minutes : Int
  tz_offset : Option Int
deriving Repr, DecidableEq

/-- Python `datetime.astimezone(tz)` as used at `services/duration.py:95-96`:
an aware value is converted to the target zone preserving the instant; a
naive value is first interpreted in the system (server) local timezone. -/
def astimezone (server_tz target_tz : Int) (dt : PyDateTime) : PyDateTime :=
  match dt.tz_offset with
  | some off => ⟨dt.wall_minutes - off + target_tz, some target_tz⟩
  | none => ⟨dt.wall_minutes - server_tz + target_tz, some target_tz⟩

/-- Modelled from the spec: `localize_request_times` is imported by
`services/request.py:28` from `services/duration.py`, but its definition
is absent from the sources.  Spec §4.4 step 2 reads: "If either endpoint
lacks timezone, interpret both as naive local times in the employee's
timezone (frontend sends local datetime strings); else convert to that
zone" — with the already-aware pair returned unchanged, as asserted by
`tests/test_duration.py::test_localize_request_times_aware_unchanged`
(the conversion of aware endpoints to the employee zone is performed
inside `calculate_requested_minutes`, `services/duration.py:95-96`). -/
def localize_request_times (employee_tz : Int) (start_at end_at : PyDateTime) :
    PyDateTime × PyDateTime :=
  if start_at.tz_offset = none ∨ end_at.tz_offset = none then
    (⟨start_at.wall_minutes, some employee_tz⟩,
     ⟨end_at.wall_minutes, some employee_tz⟩)
  else (start_at, end_at)

/-- The localization prefix of the submit pipeline: `submit_request`
localizes both endpoints (`services/request.py:222-224`) and
`calculate_requested_minutes` then converts each to the employee timezone
(`services/duration.py:95-96`) before the working-minutes computation. -/
def submitLocalizedEndpoints (server_tz employee_tz : Int)
    (start_at end_at : PyDateTime) : PyDateTime × PyDateTime :=
  let p := localize_request_times employee_tz start_at end_at
  (astimezone server_tz employee_tz p.1, astimezone server_tz employee_tz p.2)

/-- Accrual frequency (`app/models/enums.py`: `AccrualFrequency`). -/
inductive AccrualFrequency where
  | DAILY | MONTHLY | YEARLY
deriving Repr, DecidableEq

/-- Accrual timing (`app/models/enums.py`: `AccrualTiming`). -/
inductive AccrualTiming where
  | START_OF_PERIOD | END_OF_PERIOD
deriving Repr, DecidableEq

/-- Proration method (`app/models/enums.py`: `ProrationMethod`). -/
inductive ProrationMethod where
  | DAYS_ACTIVE | NONE
deriving Repr, DecidableEq

/-- Tenure tier (`schemas/policy.py`: `TenureTier`). -/
structure TenureTier where
  min_months : Int
  accrual_rate_minutes : Int
deriving Repr, DecidableEq

/-- Fields of `TimeAccrualSettings` (`schemas/policy.py`) read by the
time-based accrual engine. -/
structure TimeAccrualSettings where
  accrual_frequency : AccrualFrequency
  accrual_timing : AccrualTiming
  rate_minutes_per_year : Option Int
  rate_minutes_per_month : Option Int
  rate_minutes_per_day : Option Int
  proration : ProrationMethod
  bank_cap_minutes : Option Int
  tenure_tiers : List TenureTier
deriving Repr, DecidableEq

/-- Period boundaries `[period_start, period_end)` as Python date
ordinals (`services/accrual.py:82-104`, `_get_period_boundaries`).  The
source constructs `period_end` by `timedelta` addition, whose ordinal is
the start ordinal plus the day count. -/
def get_period_boundaries (frequency : AccrualFrequency) (target_date : Date) :
    Nat × Nat :=
  match frequency with
  | .DAILY => (target_date.toOrdinal, target_date.toOrdinal + 1)
  | .MONTHLY =>
    let period_start : Date := ⟨target_date.year, target_date.month, 1⟩
    (period_start.toOrdinal,
     period_start.toOrdinal + daysInMonth target_date.year target_date.month)
  | .YEARLY =>
    ((⟨target_date.year, 1, 1⟩ : Date).toOrdinal,
     (⟨target_date.year + 1, 1, 1⟩ : Date).toOrdinal)

/-- Whether an accrual posts on `target_date`
(`services/accrual.py:107-127`, `_is_accrual_date`). -/
def is_accrual_date (frequency : AccrualFrequency) (timing : AccrualTiming)
    (target_date : Date) : Bool :=
  match frequency with
  | .DAILY => true
  | .MONTHLY =>
    match timing with
    | .START_OF_PERIOD => target_date.day = 1
    | .END_OF_PERIOD =>
      target_date.day = daysInMonth target_date.year target_date.month
  | .YEARLY =>
    match timing with
    | .START_OF_PERIOD => target_date.month = 1 && target_date.day = 1
    | .END_OF_PERIOD => target_date.month = 12 && target_date.day = 31

/-- Accrual rate with tenure-tier override
(`services/accrual.py:130-167`, `_resolve_accrual_rate`): the base rate
is the one matching the frequency (0 when unset); with non-empty tiers,
tenure in whole months is computed from `hire_date ?? assignment_from`
and the tier with the largest satisfied `min_months` wins, falling back
to the base rate. -/
def resolve_accrual_rate (settings : TimeAccrualSettings) (hire_date : Option Date)
    (assignment_from : Date) (target_date : Date) : Int :=
  let base_rate : Option Int :=
    match settings.accrual_frequency with
    | .DAILY => settings.rate_minutes_per_day
    | .MONTHLY => settings.rate_minutes_per_month
    | .YEARLY => settings.rate_minutes_per_year
  match base_rate with
  | none => 0
  | some base =>
    if settings.tenure_tiers = [] then base
    else
      let start := hire_date.getD assignment_from
      let months : Int :=
        ((target_date.year : Int) - (start.year : Int)) * 12 +
          ((target_date.month : Int) - (start.month : Int))
      let sorted_tiers :=
        settings.tenure_tiers.mergeSort fun a b => b.min_months ≤ a.min_months
      match sorted_tiers.find? fun t => decide (t.min_months ≤ months) with
      | some tier => tier.accrual_rate_minutes
      | none => base

/-- Accrual amount for one period
(`services/accrual.py:170-205`, `_compute_accrual_amount`).  Python floor
division `//` is `Int` division (`Int.ediv`) here; the divisor is always
positive in this branch, where the two agree. -/
def compute_accrual_amount (settings : TimeAccrualSettings) (target_date : Date)
    (assignment_effective_from : Date) (hire_date : Option Date) : Int :=
  let rate := resolve_accrual_rate settings hire_date assignment_effective_from target_date
  if rate ≤ 0 then 0
  else if settings.proration = ProrationMethod.NONE then rate
  else
    let pb := get_period_boundaries settings.accrual_frequency target_date
    let total_days : Int := (pb.2 : Int) - (pb.1 : Int)
    if total_days ≤ 0 then 0
    else
      let active_start : Nat := max assignment_effective_from.toOrdinal pb.1
      let active_days : Int := (pb.2 : Int) - (active_start : Int)
      if active_days ≥ total_days then rate
      else if active_days ≤ 0 then 0
      else rate * active_days / total_days

/-- Whether the ledger already holds a row with the given idempotency key
`(source_type, source_id, entry_type)` — the unique constraint of
`app/models/ledger.py` whose violation the posting helpers catch under a
savepoint (`services/accrual.py:440-445`, `services/carryover.py:135-142`). -/
def hasEntry (ledger : List LedgerEntry) (stype : SourceType) (sid : String)
    (etype : EntryType) : Bool :=
  ledger.any fun e =>
    decide (e.source_type = stype ∧ e.source_id = sid ∧ e.entry_type = etype)

/-- Contribution of one entry to the recomputed `accrued` total
(`services/balance.py:42-48,88-100`: signed amounts of ACCRUAL,
ADJUSTMENT, CARRYOVER, EXPIRATION). -/
def entryAccruedContribution (e : LedgerEntry) : Int :=
  match e.entry_type with
  | .ACCRUAL | .ADJUSTMENT | .CARRYOVER | .EXPIRATION => e.amount_minutes
  | _ => 0

/-- Contribution of one entry to the recomputed `used` total
(`services/balance.py:101-112`: absolute amounts of USAGE). -/
def entryUsedContribution (e : LedgerEntry) : Int :=
  match e.entry_type with
  | .USAGE => |e.amount_minutes|
  | _ => 0

/-- Contribution of one entry to the recomputed `held` total
(`services/balance.py:113-128`: absolute HOLD minus absolute
HOLD_RELEASE). -/
def entryHeldContribution (e : LedgerEntry) : Int :=
  match e.entry_type with
  | .HOLD => |e.amount_minutes|
  | .HOLD_RELEASE => -|e.amount_minutes|
  | _ => 0

/-- Recompute `(accrued, used, held)` from the ledger for one triple
(`services/balance.py:72-133`, `_compute_balance_from_ledger`). -/
def computeBalanceFromLedger (ledger : List LedgerEntry) (cid eid pid : Nat) :
    Int × Int × Int :=
  let entries := ledger.filter fun e =>
    decide (e.company_id = cid ∧ e.employee_id = eid ∧ e.policy_id = pid)
  (entries.foldl (fun acc e => acc + entryAccruedContribution e) 0,
   entries.foldl (fun acc e => acc + entryUsedContribution e) 0,
   entries.foldl (fun acc e => acc + entryHeldContribution e) 0)

/-- Database state the batch engines touch within one company: the ledger
and the balance-snapshot table keyed by `(employee_id, policy_id)`. -/
structure EngineState where
  ledger : List LedgerEntry
  snapshots : List ((Nat × Nat) × Snapshot)
deriving Repr, DecidableEq

/-- Snapshot-table lookup by `(employee_id, policy_id)` key. -/
def lookupSnap : List ((Nat × Nat) × Snapshot) → Nat × Nat → Option Snapshot
  | [], _ => none
  | (k', s') :: rest, k => if k' = k then some s' else lookupSnap rest k

/-- Snapshot-table write: replace the row with the given key, or insert
it when absent. -/
def setSnap : List ((Nat × Nat) × Snapshot) → Nat × Nat → Snapshot →
    List ((Nat × Nat) × Snapshot)
  | [], k, s => [(k, s)]
  | (k', s') :: rest, k, s =>
    if k' = k then (k, s) :: rest else (k', s') :: setSnap rest k s

/-- Locked snapshot fetch with lazy creation
(`services/balance.py:136-170`, `_get_or_create_snapshot_for_update`):
a missing row is materialized from the ledger totals with
`available = accrued − used − held` and `version = 1`. -/
def getOrCreateSnapshot (cid : Nat) (st : EngineState) (key : Nat × Nat) :
    Snapshot × EngineState :=
  match lookupSnap st.snapshots key with
  | some s => (s, st)
  | none =>
    let t := computeBalanceFromLedger st.ledger cid key.1 key.2
    let s := snapshotFromLedgerTotals t.1 t.2.1 t.2.2
    (s, { st with snapshots := setSnap st.snapshots key s })

/-- ACCRUAL posting helper (`services/accrual.py:388-465`,
`_post_accrual_entry`): lock (or create) the snapshot, clamp the amount
by the bank cap resolved from the effective policy version, skip when the
clamped amount is not positive, insert the entry under a savepoint —
a duplicate `(source_type, source_id, ACCRUAL)` key degrades to a skip —
then update the snapshot.  The entry metadata is write-only and is
modelled as `none`. -/
def post_accrual_entry (cid : Nat) (bank_cap : Option Int) (eid pid : Nat)
    (amount : Int) (stype : SourceType) (sid : String) (st : EngineState) :
    Option LedgerEntry × EngineState :=
  let r := getOrCreateSnapshot cid st (eid, pid)
  let snap := r.1
  let st₁ := r.2
  let capped := apply_bank_cap snap.accrued_minutes amount bank_cap
  if capped ≤ 0 then (none, st₁)
  else if hasEntry st₁.ledger stype sid .ACCRUAL then (none, st₁)
  else
    let entry : LedgerEntry := ⟨cid, eid, pid, .ACCRUAL, capped, stype, sid, none⟩
    (some entry,
      { ledger := st₁.ledger ++ [entry]
        snapshots := setSnap st₁.snapshots (eid, pid)
          (accrualSnapshotUpdate capped snap) })

/-- Fields of `HoursWorkedAccrualSettings` (`schemas/policy.py`) read by
the payroll engine. -/
structure HWSettings where
  accrue_minutes : Int
  per_worked_minutes : Int
  bank_cap_minutes : Option Int
deriving Repr, DecidableEq

/-- Hours-worked accrual amount (`services/accrual.py:227-236`,
`_compute_hours_worked_accrual`): Python floor division with the
positive `per_worked_minutes` divisor is `Int` division here. -/
def compute_hours_worked_accrual (s : HWSettings) (worked_minutes : Int) : Int :=
  worked_minutes * s.accrue_minutes / s.per_worked_minutes

/-- Payroll idempotency source id (`services/accrual.py:248-254`,
`_build_payroll_source_id`). -/
def build_payroll_source_id (payroll_run_id : String) (eid pid : Nat) : String :=
  "payroll:" ++ payroll_run_id ++ ":" ++ toString eid ++ ":" ++ toString pid

/-- One unit of payroll-webhook work: a payload entry paired with one of
the employee's active HOURS_WORKED assignments
(`services/accrual.py:589-598`).  `settings = none` models the skip when
no policy version is effective on `period_end` or its settings are not
HOURS_WORKED (`services/accrual.py:602-610`); the assignment and version
tables are read-only during the run, so the pairing is data. -/
structure PayrollStep where
  employee_id : Nat
  worked_minutes : Int
  policy_id : Nat
  settings : Option HWSettings
deriving Repr, DecidableEq

/-- Per-step body of `process_payroll_event`
(`services/accrual.py:599-651`): resolve settings, compute the ratio
amount, skip non-positive amounts, and post the ACCRUAL entry under the
payroll idempotency key. -/
def applyPayrollStep (cid : Nat) (runId : String) (st : EngineState)
    (stp : PayrollStep) : EngineState :=
  match stp.settings with
  | none => st
  | some s =>
    let amount := compute_hours_worked_accrual s stp.worked_minutes
    if amount ≤ 0 then st
    else
      (post_accrual_entry cid s.bank_cap_minutes stp.employee_id stp.policy_id
        amount .PAYROLL
        (build_payroll_source_id runId stp.employee_id stp.policy_id) st).2

/-- Whole payroll webhook processing (`services/accrual.py:574-663`,
`process_payroll_event`): fold the per-step body over the payload's
(entry, assignment) pairs. -/
def process_payroll_event (cid : Nat) (runId : String)
    (steps : List PayrollStep) (st : EngineState) : EngineState :=
  steps.foldl (applyPayrollStep cid runId) st

/-- The available balance recomputed from a locked snapshot's fields, as
read by the carryover and expiration engines
(`services/carryover.py:201,377,454`:
`available = accrued - used - held`). -/
def snapAvailable (s : Snapshot) : Int :=
  s.accrued_minutes - s.used_minutes - s.held_minutes

/-- Generic SYSTEM-sourced ledger posting with idempotency
(`services/carryover.py:108-142`, `_post_ledger_entry`): the insert runs
under a savepoint and a duplicate `(source_type, source_id, entry_type)`
key degrades to `None`. -/
def post_ledger_entry (cid eid pid : Nat) (etype : EntryType) (amount : Int)
    (sid : String) (meta : Option EntryMeta) (ledger : List LedgerEntry) :
    Option LedgerEntry × List LedgerEntry :=
  if hasEntry ledger .SYSTEM sid etype then (none, ledger)
  else
    let entry : LedgerEntry := ⟨cid, eid, pid, etype, amount, .SYSTEM, sid, meta⟩
    (some entry, ledger ++ [entry])

/-- Carryover settings (`schemas/policy.py`: `CarryoverSettings`). -/
structure CarryoverSettings where
  enabled : Bool
  cap_minutes : Option Int
  expires_after_days : Option Int
deriving Repr, DecidableEq

/-- Carry amount under an optional cap (`services/carryover.py:208-209`:
`min(available, cap)` when capped, else all of `available`). -/
def carryAmount (co : CarryoverSettings) (available : Int) : Int :=
  match co.cap_minutes with
  | some cap => min available cap
  | none => available

/-- Two-digit zero padding as in Python format `{:02d}`. -/
def pad2 (n : Nat) : String :=
  if n < 10 then "0" ++ toString n else toString n

/-- Source id of the year-end carryover-excess EXPIRATION
(`services/carryover.py:217`). -/
def carryover_expiration_source_id (pid eid year : Nat) : String :=
  "carryover:" ++ toString pid ++ ":" ++ toString eid ++ ":" ++ toString year

/-- Source id of the CARRYOVER marker (`services/carryover.py:257`). -/
def carryover_marker_source_id (pid eid year : Nat) : String :=
  "carryover_marker:" ++ toString pid ++ ":" ++ toString eid ++ ":" ++ toString year

/-- Source id of a calendar-date EXPIRATION
(`services/carryover.py:382`). -/
def calendar_expiration_source_id (pid eid : Nat) (d : Date) : String :=
  "expiration:" ++ toString pid ++ ":" ++ toString eid ++ ":" ++ toString d.year ++
    ":" ++ pad2 d.month ++ "-" ++ pad2 d.day

/-- Source id of a post-carryover EXPIRATION
(`services/carryover.py:461`). -/
def carryover_expiry_source_id (pid eid year : Nat) : String :=
  "carryover_expiry:" ++ toString pid ++ ":" ++ toString eid ++ ":" ++ toString year

/-- One active-assignment row as consumed by the carryover engine
(`services/carryover.py:184-186`): the key triple plus the carryover
block of the parsed settings.  `carryover = none` models settings without
a carryover block (`services/carryover.py:507-511`,
`_get_carryover_settings` on `UnlimitedSettings`). -/
structure CarryRow where
  company_id : Nat
  employee_id : Nat
  policy_id : Nat
  carryover : Option CarryoverSettings
deriving Repr, DecidableEq

/-- Per-assignment body of `run_carryover_processing`
(`services/carryover.py:184-291`): skip unless carryover is enabled; lock
the snapshot; skip when `available ≤ 0`; compute
`carry = min(available, cap)` (all of it when cap is `None`) and
`expire = available − carry`; post the EXPIRATION of `−expire` when
positive, updating the snapshot only when the entry was fresh; always
attempt the zero-amount CARRYOVER marker carrying `carried_minutes`. -/
def carryoverAssignmentStep (year : Nat) (st : EngineState) (row : CarryRow) :
    EngineState :=
  match row.carryover with
  | none => st
  | some co =>
    if co.enabled = false then st
    else
      let r := getOrCreateSnapshot row.company_id st (row.employee_id, row.policy_id)
      let snapshot := r.1
      let st₁ := r.2
      let available := snapAvailable snapshot
      if available ≤ 0 then st₁
      else
        let carry_amount := carryAmount co available
        let expire_amount := available - carry_amount
        let st₂ :=
          if 0 < expire_amount then
            let p := post_ledger_entry row.company_id row.employee_id row.policy_id
              .EXPIRATION (-expire_amount)
              (carryover_expiration_source_id row.policy_id row.employee_id year)
              none st₁.ledger
            match p.1 with
            | some _ =>
              { ledger := p.2
                snapshots := setSnap st₁.snapshots (row.employee_id, row.policy_id)
                  (expirationSnapshotUpdate expire_amount snapshot) }
            | none => { st₁ with ledger := p.2 }
          else st₁
        let m := post_ledger_entry row.company_id row.employee_id row.policy_id
          .CARRYOVER 0
          (carryover_marker_source_id row.policy_id row.employee_id year)
          (some ⟨carry_amount⟩) st₂.ledger
        { st₂ with ledger := m.2 }

/-- Year-end carryover engine (`services/carryover.py:150-298`,
`run_carryover_processing`): a no-op unless `target_date` is January 1;
otherwise processes every active accrual assignment with
`year_processed = target_date.year − 1`. -/
def run_carryover_processing (target_date : Date) (rows : List CarryRow)
    (st : EngineState) : EngineState :=
  if target_date.month ≠ 1 ∨ target_date.day ≠ 1 then st
  else rows.foldl (carryoverAssignmentStep (target_date.year - 1)) st

/-- Calendar-date expiration (`services/carryover.py:365-419`,
`_process_calendar_expiration`): lock the snapshot; when
`available > 0`, post an EXPIRATION of the whole available balance and
update the snapshot unless the idempotency key already exists. -/
def process_calendar_expiration (cid eid pid : Nat) (target_date : Date)
    (st : EngineState) : EngineState :=
  let r := getOrCreateSnapshot cid st (eid, pid)
  let snapshot := r.1
  let st₁ := r.2
  let available := snapAvailable snapshot
  if available ≤ 0 then st₁
  else
    let p := post_ledger_entry cid eid pid .EXPIRATION (-available)
      (calendar_expiration_source_id pid eid target_date) none st₁.ledger
    match p.1 with
    | some _ =>
      { ledger := p.2
        snapshots := setSnap st₁.snapshots (eid, pid)
          (expirationSnapshotUpdate available snapshot) }
    | none => { st₁ with ledger := p.2 }

/-- Lookup of the CARRYOVER marker entry
(`services/carryover.py:434-441`): the row with the marker source id and
entry type CARRYOVER. -/
def findCarryoverMarker (ledger : List LedgerEntry) (sid : String) :
    Option LedgerEntry :=
  ledger.find? fun e => decide (e.source_id = sid ∧ e.entry_type = .CARRYOVER)

/-- Post-carryover expiration (`services/carryover.py:422-499`,
`_process_carryover_expiration`): read `carried_minutes` from the marker
metadata (skipping on a missing marker or NULL metadata, or when the
carried amount is not positive); lock the snapshot; expire
`min(carried_minutes, max(available, 0))` when positive. -/
def process_carryover_expiration (cid eid pid : Nat) (target_date : Date)
    (carryover_year : Nat) (st : EngineState) : EngineState :=
  match findCarryoverMarker st.ledger
      (carryover_marker_source_id pid eid carryover_year) with
  | none => st
  | some marker =>
    match marker.metadata_json with
    | none => st
    | some meta =>
      let carried_minutes := meta.carried_minutes
      if carried_minutes ≤ 0 then st
      else
        let r := getOrCreateSnapshot cid st (eid, pid)
        let snapshot := r.1
        let st₁ := r.2
        let available := snapAvailable snapshot
        let expire_amount := min carried_minutes (max available 0)
        if expire_amount ≤ 0 then st₁
        else
          let p := post_ledger_entry cid eid pid .EXPIRATION (-expire_amount)
            (carryover_expiry_source_id pid eid carryover_year) none st₁.ledger
          match p.1 with
          | some _ =>
            { ledger := p.2
              snapshots := setSnap st₁.snapshots (eid, pid)
                (expirationSnapshotUpdate expire_amount snapshot) }
          | none => { st₁ with ledger := p.2 }

/-- Growth preorder on engine states along a batch run: the ledger only
gains rows and each existing snapshot row keeps a row whose `accrued`
total has not decreased.  ACCRUAL posting only ever adds positive clamped
amounts, so runs are monotone for this order. -/
def EngineLe (st st' : EngineState) : Prop :=
  (∀ e ∈ st.ledger, e ∈ st'.ledger) ∧
  (∀ k s, lookupSnap st.snapshots k = some s →
    ∃ s', lookupSnap st'.snapshots k = some s' ∧
      s.accrued_minutes ≤ s'.accrued_minutes)

/-- C1: after every committed mutating operation (submit, approve, deny,
cancel, adjust, accrual posting, carryover-excess expiration, calendar
expiration, post-carryover expiration, and lazy snapshot creation) the
affected snapshot row satisfies
`available_minutes = accrued_minutes - used_minutes - held_minutes`. -/
theorem C1_snapshot_field_equation (op : MutOp) (s : Snapshot) :
    snapInv (applyMutOp op s) := by
  cases op <;>
    simp [applyMutOp, snapInv, submitSnapshotUpdate, approveSnapshotUpdate,
      releaseHoldSnapshotUpdate, adjustmentSnapshotUpdate, accrualSnapshotUpdate,
      expirationSnapshotUpdate, snapshotFromLedgerTotals]

/-- C3, counterexample: the claim asserts the balance gate is applied to
every signed `amount_minutes`.  The code applies it only when
`amount_minutes < 0`: with a non-unlimited policy, `allow_negative = false`,
no negative limit, a snapshot at `available = -100`, and the positive
adjustment `+50`, the new available `-50` is negative — the claimed gate
would fail with BadRequest — yet `create_adjustment` succeeds and posts
the full amount. -/
theorem C3_counterexample :
    (GateSettings.mk false false none).allow_negative = false ∧
    (Snapshot.mk (-100) 0 0 (-100) 1).available_minutes + 50 < 0 ∧
    create_adjustment ⟨false, false, none⟩ ⟨-100, 0, 0, -100, 1⟩ 50 =
      .ok (⟨-50, 0, 0, -50, 2⟩, 50) := by
  refine ⟨rfl, by decide, ?_⟩
  rfl

/-- C3, amended: for a non-unlimited policy, `create_adjustment` fails
(with a 400 BadRequest) exactly when `amount_minutes < 0` and the balance
gate on `new_available = snapshot.available + amount_minutes` fires:
either `allow_negative` is false and `new_available < 0`, or
`allow_negative` is true, `negative_limit_minutes` is non-null, and
`new_available < -negative_limit_minutes`.  For `amount_minutes ≥ 0` no
gate is applied and the adjustment always succeeds. -/
theorem C3_adjustment_gate_only_for_negative_amounts
    (settings : GateSettings) (snapshot : Snapshot) (amount_minutes : Int)
    (hnu : settings.is_unlimited = false) :
    (∃ e, create_adjustment settings snapshot amount_minutes = .error e ∧
        e.status_code = 400) ↔
      (amount_minutes < 0 ∧
        ((settings.allow_negative = false ∧
            snapshot.available_minutes + amount_minutes < 0) ∨
          (settings.allow_negative = true ∧
            ∃ limit, settings.negative_limit_minutes = some limit ∧
              snapshot.available_minutes + amount_minutes < -limit))) := by
  rcases settings with ⟨u, an, nl⟩
  obtain rfl : u = false := hnu
  cases an <;> rcases nl with _ | limit <;>
    simp only [create_adjustment, negativeLimitExceeded] <;>
    split_ifs with h1 h2 h3 <;>
    simp_all

/-- C3, witness for the amended theorem at a concrete input: a `-10`
adjustment on a zero snapshot with `allow_negative = false` fails the
gate. -/
theorem C3_adjustment_gate_witness :
    (∃ e, create_adjustment ⟨false, false, none⟩ ⟨0, 0, 0, 0, 1⟩ (-10) = .error e ∧
        e.status_code = 400) ↔
      ((-10 : Int) < 0 ∧
        (((false : Bool) = false ∧ (0 : Int) + (-10) < 0) ∨
          ((false : Bool) = true ∧
            ∃ limit, (none : Option Int) = some limit ∧ (0 : Int) + (-10) < -limit))) :=
  C3_adjustment_gate_only_for_negative_amounts ⟨false, false, none⟩ ⟨0, 0, 0, 0, 1⟩ (-10) rfl

/-- C10: for every non-negative `amount_minutes`, `create_adjustment` on a
non-unlimited policy performs no balance check and no bank-cap clamp: it
succeeds, posts the full amount, and increases `accrued_minutes` by
exactly `amount_minutes`, even when the result exceeds any bank cap —
where the ACCRUAL path (`_apply_bank_cap`) would have kept accrued at or
below `max accrued cap`. -/
theorem C10_adjustment_ignores_bank_cap
    (settings : GateSettings) (snapshot : Snapshot) (amount_minutes : Int)
    (_hnu : settings.is_unlimited = false) (hpos : 0 ≤ amount_minutes) :
    create_adjustment settings snapshot amount_minutes =
      .ok (adjustmentSnapshotUpdate amount_minutes snapshot, amount_minutes) ∧
    (adjustmentSnapshotUpdate amount_minutes snapshot).accrued_minutes =
      snapshot.accrued_minutes + amount_minutes ∧
    ∀ bank_cap : Int,
      snapshot.accrued_minutes + amount_minutes > bank_cap →
        (adjustmentSnapshotUpdate amount_minutes snapshot).accrued_minutes > bank_cap ∧
        snapshot.accrued_minutes +
            apply_bank_cap snapshot.accrued_minutes amount_minutes (some bank_cap) ≤
          max snapshot.accrued_minutes bank_cap := by
  refine ⟨?_, rfl, ?_⟩
  · unfold create_adjustment
    rw [if_neg]
    rintro ⟨-, hlt⟩
    exact absurd hpos (not_le.mpr hlt)
  · intro bank_cap hover
    refine ⟨hover, ?_⟩
    unfold apply_bank_cap
    by_cases hh : bank_cap - snapshot.accrued_minutes ≤ 0
    · simp only [if_pos hh, add_zero, le_max_left]
    · simp only [if_neg hh]
      have : snapshot.accrued_minutes + min amount_minutes (bank_cap - snapshot.accrued_minutes) ≤
          bank_cap := by
        have := min_le_right amount_minutes (bank_cap - snapshot.accrued_minutes)
        omega
      exact le_trans this (le_max_right _ _)

/-- C10, witness: adjusting `+1000` on a snapshot with `accrued = 500`
posts the full amount even past a bank cap of `600`. -/
theorem C10_adjustment_ignores_bank_cap_witness :
    create_adjustment ⟨false, false, none⟩ ⟨500, 0, 0, 500, 1⟩ 1000 =
      .ok (adjustmentSnapshotUpdate 1000 ⟨500, 0, 0, 500, 1⟩, 1000) ∧
    (adjustmentSnapshotUpdate 1000 ⟨500, 0, 0, 500, 1⟩).accrued_minutes =
      (500 : Int) + 1000 ∧
    ∀ bank_cap : Int,
      (500 : Int) + 1000 > bank_cap →
        (adjustmentSnapshotUpdate 1000 ⟨500, 0, 0, 500, 1⟩).accrued_minutes > bank_cap ∧
        (500 : Int) + apply_bank_cap 500 1000 (some bank_cap) ≤ max 500 bank_cap :=
  C10_adjustment_ignores_bank_cap ⟨false, false, none⟩ ⟨500, 0, 0, 500, 1⟩ 1000 rfl
    (by decide)

/-- C7: when the request insert violates the
`(company_id, employee_id, idempotency_key)` unique constraint, a
supplied key makes `submit_request` return the already-stored request
unchanged — no new request row, no new HOLD entry, snapshot unchanged —
while the handler fails Conflict 409 whenever no key was supplied. -/
theorem C7_submit_idempotency_conflict (st : SubmitState) (new_req : StoredRequest)
    (hconf : requestKeyConflict st.requests new_req.company_id
      new_req.employee_id new_req.idempotency_key = true) :
    (∃ k existing, new_req.idempotency_key = some k ∧
      existing ∈ st.requests ∧
      existing.company_id = new_req.company_id ∧
      existing.employee_id = new_req.employee_id ∧
      existing.idempotency_key = some k ∧
      submit_insert st new_req = .ok (existing, st)) ∧
    (∀ requests cid eid,
      handleSubmitIntegrityError requests cid eid none =
        .error ⟨"Duplicate request", 409⟩) := by
  refine ⟨?_, fun _ _ _ => rfl⟩
  rcases hk : new_req.idempotency_key with _ | k
  · simp only [requestKeyConflict, hk] at hconf
    exact absurd hconf (by decide)
  · have hany := hconf
    simp only [requestKeyConflict, hk] at hany
    rcases hex : findExistingRequest st.requests new_req.company_id
        new_req.employee_id k with _ | existing
    · exfalso
      have hfind : (findExistingRequest st.requests new_req.company_id
          new_req.employee_id k).isSome := by
        rw [findExistingRequest, List.find?_isSome]
        rw [List.any_eq_true] at hany
        exact hany
      rw [hex] at hfind
      cases hfind
    · rw [findExistingRequest] at hex
      have hprop := List.find?_some hex
      have hmem := List.mem_of_find?_eq_some hex
      rw [decide_eq_true_eq] at hprop
      refine ⟨k, existing, rfl, hmem, hprop.1, hprop.2.1, hprop.2.2, ?_⟩
      rw [submit_insert, if_pos hconf]
      simp only [handleSubmitIntegrityError, hk, findExistingRequest, hex]

/-- C7, witness: a resubmit with key `abc` already stored returns the
stored request and leaves the state unchanged. -/
theorem C7_submit_idempotency_conflict_witness :
    (∃ k existing,
      (StoredRequest.mk 9 1 2 3 60 (some "abc")).idempotency_key = some k ∧
      existing ∈ (SubmitState.mk [⟨1, 1, 2, 3, 60, some "abc"⟩] [] ⟨0, 0, 0, 0, 1⟩).requests ∧
      existing.company_id = (StoredRequest.mk 9 1 2 3 60 (some "abc")).company_id ∧
      existing.employee_id = (StoredRequest.mk 9 1 2 3 60 (some "abc")).employee_id ∧
      existing.idempotency_key = some k ∧
      submit_insert ⟨[⟨1, 1, 2, 3, 60, some "abc"⟩], [], ⟨0, 0, 0, 0, 1⟩⟩
          ⟨9, 1, 2, 3, 60, some "abc"⟩ =
        .ok (existing, ⟨[⟨1, 1, 2, 3, 60, some "abc"⟩], [], ⟨0, 0, 0, 0, 1⟩⟩)) ∧
    (∀ requests cid eid,
      handleSubmitIntegrityError requests cid eid none =
        .error ⟨"Duplicate request", 409⟩) :=
  C7_submit_idempotency_conflict
    ⟨[⟨1, 1, 2, 3, 60, some "abc"⟩], [], ⟨0, 0, 0, 0, 1⟩⟩
    ⟨9, 1, 2, 3, 60, some "abc"⟩ (by decide)

theorem pickCurrent_mem {l : List PolicyVersion} {b : PolicyVersion}
    (h : pickCurrent l = some b) : b ∈ l := by
  induction l with
  | nil => cases h
  | cons v rest ih =>
    rcases hrest : pickCurrent rest with _ | c
    · simp only [pickCurrent, hrest] at h
      cases h
      exact List.mem_cons_self _ _
    · simp only [pickCurrent, hrest] at h
      by_cases hv : c.version < v.version
      · rw [if_pos hv] at h
        cases h
        exact List.mem_cons_self _ _
      · rw [if_neg hv] at h
        cases h
        exact List.mem_cons_of_mem _ (ih hrest)

theorem pickCurrent_all_eq {l : List PolicyVersion} {v₀ : PolicyVersion}
    (hall : ∀ w ∈ l, w = v₀) (hne : l ≠ []) : pickCurrent l = some v₀ := by
  induction l with
  | nil => exact absurd rfl hne
  | cons v rest ih =>
    have hv : v = v₀ := hall v (List.mem_cons_self _ _)
    rcases hrest : pickCurrent rest with _ | c
    · simp only [pickCurrent, hrest]
      rw [hv]
    · have hc : c = v₀ := hall c (List.mem_cons_of_mem _ (pickCurrent_mem hrest))
      simp only [pickCurrent, hrest]
      by_cases hlt : c.version < v.version
      · rw [if_pos hlt, hv]
      · rw [if_neg hlt, hc]

theorem get_current_version_of_inv {versions : List PolicyVersion}
    {v₀ : PolicyVersion} (hmem : v₀ ∈ versions) (hnull : v₀.effective_to = none)
    (huniq : ∀ w ∈ versions, w.effective_to = none → w = v₀) :
    get_current_version versions = some v₀ := by
  rw [get_current_version]
  apply pickCurrent_all_eq
  · intro w hw
    rw [List.mem_filter] at hw
    exact huniq w hw.1 (Option.isNone_iff_eq_none.mp hw.2)
  · intro hempty
    have : v₀ ∈ versions.filter fun v => v.effective_to.isNone := by
      rw [List.mem_filter]
      exact ⟨hmem, by rw [hnull]; rfl⟩
    rw [hempty] at this
    cases this

theorem endDate_preserves_version (cur_version : Nat) (new_ef : Date)
    (v : PolicyVersion) :
    ((if v.version = cur_version then { v with effective_to := some new_ef }
      else v) : PolicyVersion).version = v.version := by
  split <;> rfl

/-- C8: policy creation yields a single NULL-`effective_to` version
numbered 1; `update_policy` fails BadRequest (400) exactly when the new
`effective_from` precedes the current version's; otherwise it end-dates
the current version to the new `effective_from` and appends a version
numbered `current.version + 1` with `effective_to = NULL`, preserving the
invariant that each policy has exactly one version with
`effective_to = NULL` carrying the maximum version number. -/
theorem C8_policy_version_chain :
    (∀ ef : Date, uniqueCurrentMax (create_policy_versions ef) ∧
      versionNumbersUnique (create_policy_versions ef)) ∧
    (∀ (versions : List PolicyVersion) (new_ef : Date) (cur : PolicyVersion),
      get_current_version versions = some cur →
      ((∃ e, update_policy versions new_ef = .error e ∧ e.status_code = 400) ↔
        new_ef.toOrdinal < cur.effective_from.toOrdinal)) ∧
    (∀ (versions : List PolicyVersion) (new_ef : Date) (cur : PolicyVersion)
      (out : List PolicyVersion),
      versionNumbersUnique versions →
      uniqueCurrentMax versions →
      get_current_version versions = some cur →
      update_policy versions new_ef = .ok out →
      ({ cur with effective_to := some new_ef } : PolicyVersion) ∈ out ∧
      (⟨cur.version + 1, new_ef, none⟩ : PolicyVersion) ∈ out ∧
      uniqueCurrentMax out ∧ versionNumbersUnique out) := by
  refine ⟨?_, ?_, ?_⟩
  · intro ef
    constructor
    · refine ⟨⟨1, ef, none⟩, List.mem_singleton.mpr rfl, rfl, ?_, ?_⟩
      · intro w hw _
        exact List.mem_singleton.mp hw
      · intro w hw
        rw [List.mem_singleton.mp hw]
    · exact List.pairwise_singleton _ _
  · intro versions new_ef cur hcur
    simp only [update_policy, hcur]
    by_cases hlt : new_ef.toOrdinal < cur.effective_from.toOrdinal
    · rw [if_pos hlt]
      exact ⟨fun _ => hlt, fun _ => ⟨_, rfl, rfl⟩⟩
    · rw [if_neg hlt]
      constructor
      · rintro ⟨e, he, -⟩
        cases he
      · intro h
        exact absurd h hlt
  · intro versions new_ef cur out huv hinv hcur hupd
    obtain ⟨v₀, hv₀mem, hv₀null, hv₀uniq, hv₀max⟩ := hinv
    have hcur₀ : cur = v₀ := by
      have := get_current_version_of_inv hv₀mem hv₀null hv₀uniq
      rw [hcur] at this
      exact (Option.some.injEq _ _).mp this
    simp only [update_policy, hcur] at hupd
    by_cases hlt : new_ef.toOrdinal < cur.effective_from.toOrdinal
    · rw [if_pos hlt] at hupd
      cases hupd
    · rw [if_neg hlt] at hupd
      rw [Except.ok.injEq] at hupd
      subst out
      set f : PolicyVersion → PolicyVersion := fun v =>
        if v.version = cur.version then { v with effective_to := some new_ef }
        else v with hf
      have hfver : ∀ v : PolicyVersion, (f v).version = v.version := by
        intro v
        rw [hf]
        exact endDate_preserves_version cur.version new_ef v
      refine ⟨?_, ?_, ?_, ?_⟩
      · apply List.mem_append_left
        apply List.mem_map.mpr
        refine ⟨cur, by rw [hcur₀]; exact hv₀mem, ?_⟩
        simp [hf]
      · apply List.mem_append_right
        exact List.mem_singleton.mpr rfl
      · refine ⟨⟨cur.version + 1, new_ef, none⟩,
          List.mem_append_right _ (List.mem_singleton.mpr rfl), rfl, ?_, ?_⟩
        · intro w hw hwnull
          rcases List.mem_append.mp hw with hwl | hwr
          · exfalso
            obtain ⟨u, humem, hu⟩ := List.mem_map.mp hwl
            rw [← hu] at hwnull
            by_cases huv' : u.version = cur.version
            · simp [hf, huv'] at hwnull
            · simp only [hf] at hwnull
              rw [if_neg huv'] at hwnull
              exact huv' (by rw [hcur₀, hv₀uniq u humem hwnull])
          · exact List.mem_singleton.mp hwr
        · intro w hw
          rcases List.mem_append.mp hw with hwl | hwr
          · obtain ⟨u, humem, hu⟩ := List.mem_map.mp hwl
            have hva : w.version = u.version := by rw [← hu]; exact hfver u
            have hle := hv₀max u humem
            rw [← hcur₀] at hle
            show w.version ≤ cur.version + 1
            omega
          · rw [List.mem_singleton.mp hwr]
      · rw [versionNumbersUnique, List.pairwise_append]
        refine ⟨?_, List.pairwise_singleton _ _, ?_⟩
        · rw [List.pairwise_map]
          apply List.Pairwise.imp ?_ huv
          intro a b hab
          rw [hfver a, hfver b]
          exact hab
        · intro a ha b hb
          rw [List.mem_singleton.mp hb]
          obtain ⟨u, humem, hu⟩ := List.mem_map.mp ha
          have hva : a.version = u.version := by rw [← hu]; exact hfver u
          have hle := hv₀max u humem
          rw [← hcur₀] at hle
          show a.version ≠ cur.version + 1
          omega

/-- C8, witness: creating a policy effective 2025-01-01 and updating it
to be effective 2025-06-01 at concrete values. -/
theorem C8_policy_version_chain_witness :
    (uniqueCurrentMax (create_policy_versions ⟨2025, 1, 1⟩) ∧
      versionNumbersUnique (create_policy_versions ⟨2025, 1, 1⟩)) ∧
    ((∃ e, update_policy [⟨1, ⟨2025, 1, 1⟩, none⟩] ⟨2024, 6, 1⟩ = .error e ∧
        e.status_code = 400) ↔
      (Date.mk 2024 6 1).toOrdinal < (Date.mk 2025 1 1).toOrdinal) ∧
    (({ (⟨1, ⟨2025, 1, 1⟩, none⟩ : PolicyVersion) with
        effective_to := some ⟨2025, 6, 1⟩ } : PolicyVersion) ∈
      ([⟨1, ⟨2025, 1, 1⟩, some ⟨2025, 6, 1⟩⟩, ⟨2, ⟨2025, 6, 1⟩, none⟩] :
        List PolicyVersion) ∧
      (⟨2, ⟨2025, 6, 1⟩, none⟩ : PolicyVersion) ∈
        ([⟨1, ⟨2025, 1, 1⟩, some ⟨2025, 6, 1⟩⟩, ⟨2, ⟨2025, 6, 1⟩, none⟩] :
          List PolicyVersion) ∧
      uniqueCurrentMax [⟨1, ⟨2025, 1, 1⟩, some ⟨2025, 6, 1⟩⟩, ⟨2, ⟨2025, 6, 1⟩, none⟩] ∧
      versionNumbersUnique
        [⟨1, ⟨2025, 1, 1⟩, some ⟨2025, 6, 1⟩⟩, ⟨2, ⟨2025, 6, 1⟩, none⟩]) :=
  ⟨C8_policy_version_chain.1 ⟨2025, 1, 1⟩,
   C8_policy_version_chain.2.1 [⟨1, ⟨2025, 1, 1⟩, none⟩] ⟨2024, 6, 1⟩
     ⟨1, ⟨2025, 1, 1⟩, none⟩ rfl,
   C8_policy_version_chain.2.2 [⟨1, ⟨2025, 1, 1⟩, none⟩] ⟨2025, 6, 1⟩
     ⟨1, ⟨2025, 1, 1⟩, none⟩
     [⟨1, ⟨2025, 1, 1⟩, some ⟨2025, 6, 1⟩⟩, ⟨2, ⟨2025, 6, 1⟩, none⟩]
     (by rw [versionNumbersUnique]; exact List.pairwise_singleton _ _)
     ⟨⟨1, ⟨2025, 1, 1⟩, none⟩, List.mem_singleton.mpr rfl, rfl,
       fun w hw _ => List.mem_singleton.mp hw,
       fun w hw => by rw [List.mem_singleton.mp hw]⟩
     rfl (by rfl)⟩

/-- C2: when either submitted endpoint lacks timezone information, both
endpoints reach the working-minutes calculation as naive local times
interpreted in the employee's timezone — the wall-clock values are kept
verbatim and the result is independent of the server's local zone — while
endpoints that carry a timezone are converted to the employee's zone
preserving the instant. -/
theorem C2_naive_datetimes_use_employee_timezone
    (server_tz server_tz2 employee_tz : Int) (s e : PyDateTime) :
    ((s.tz_offset = none ∨ e.tz_offset = none) →
      submitLocalizedEndpoints server_tz employee_tz s e =
        (⟨s.wall_minutes, some employee_tz⟩, ⟨e.wall_minutes, some employee_tz⟩) ∧
      submitLocalizedEndpoints server_tz employee_tz s e =
        submitLocalizedEndpoints server_tz2 employee_tz s e) ∧
    (∀ so eo, s.tz_offset = some so → e.tz_offset = some eo →
      submitLocalizedEndpoints server_tz employee_tz s e =
        (⟨s.wall_minutes - so + employee_tz, some employee_tz⟩,
         ⟨e.wall_minutes - eo + employee_tz, some employee_tz⟩)) := by
  constructor
  · intro hnaive
    have h1 : submitLocalizedEndpoints server_tz employee_tz s e =
        (⟨s.wall_minutes, some employee_tz⟩, ⟨e.wall_minutes, some employee_tz⟩) := by
      rw [submitLocalizedEndpoints, localize_request_times, if_pos hnaive]
      simp [astimezone]
    have h2 : submitLocalizedEndpoints server_tz2 employee_tz s e =
        (⟨s.wall_minutes, some employee_tz⟩, ⟨e.wall_minutes, some employee_tz⟩) := by
      rw [submitLocalizedEndpoints, localize_request_times, if_pos hnaive]
      simp [astimezone]
    exact ⟨h1, h1.trans h2.symm⟩
  · intro so eo hso heo
    have hnot : ¬(s.tz_offset = none ∨ e.tz_offset = none) := by
      rintro (h | h)
      · rw [hso] at h; cases h
      · rw [heo] at h; cases h
    rw [submitLocalizedEndpoints, localize_request_times, if_neg hnot]
    simp [astimezone, hso, heo]

/-- C2, witness: naive endpoints `09:00` and `17:00` submitted under two
different server zones both come out as employee-zone wall times. -/
theorem C2_naive_datetimes_use_employee_timezone_witness :
    submitLocalizedEndpoints 123 (-300) ⟨540, none⟩ ⟨1020, none⟩ =
      (⟨540, some (-300)⟩, ⟨1020, some (-300)⟩) ∧
    submitLocalizedEndpoints 123 (-300) ⟨540, none⟩ ⟨1020, none⟩ =
      submitLocalizedEndpoints (-789) (-300) ⟨540, none⟩ ⟨1020, none⟩ :=
  (C2_naive_datetimes_use_employee_timezone 123 (-789) (-300)
    ⟨540, none⟩ ⟨1020, none⟩).1 (Or.inl rfl)

theorem daysInMonth_pos (y m : Nat) : 0 < daysInMonth y m := by
  unfold daysInMonth
  repeat' split
  all_goals omega

theorem daysBeforeYear_lt (y : Nat) (hy : 1 ≤ y) :
    daysBeforeYear y < daysBeforeYear (y + 1) := by
  unfold daysBeforeYear
  omega

theorem boundaries_lt (freq : AccrualFrequency) (target : Date)
    (hy : 1 ≤ target.year) :
    (get_period_boundaries freq target).1 < (get_period_boundaries freq target).2 := by
  cases freq
  · simp [get_period_boundaries]
  · simp only [get_period_boundaries]
    exact Nat.lt_add_of_pos_right (daysInMonth_pos _ _)
  · simp only [get_period_boundaries, Date.toOrdinal]
    have h0 : daysBeforeMonth target.year 1 = 0 := rfl
    have h1 : daysBeforeMonth (target.year + 1) 1 = 0 := rfl
    have h2 := daysBeforeYear_lt target.year hy
    omega

/-- C4: for a TIME accrual policy with proration DAYS_ACTIVE (and a
positive resolved rate), the computed accrual amount is
`(rate * active_days) / total_days` with floor integer division, where
`active_days` is the day count from `max(assignment.effective_from,
period_start)` to `period_end` clamped to `[0, total_days]`; on a MONTHLY
480 min/month policy with assignment effective 2025-01-15 and period
`[2025-01-01, 2025-02-01)` this yields `480 * 17 / 31 = 263`. -/
theorem C4_days_active_proration :
    (∀ (settings : TimeAccrualSettings) (target_date ef : Date)
      (hire : Option Date),
      settings.proration = .DAYS_ACTIVE →
      1 ≤ target_date.year →
      0 < resolve_accrual_rate settings hire ef target_date →
      compute_accrual_amount settings target_date ef hire =
        resolve_accrual_rate settings hire ef target_date *
          (min
            (((get_period_boundaries settings.accrual_frequency target_date).2 : Int) -
              ((get_period_boundaries settings.accrual_frequency target_date).1 : Int))
            (max 0
              (((get_period_boundaries settings.accrual_frequency target_date).2 : Int) -
                ((max ef.toOrdinal
                  (get_period_boundaries settings.accrual_frequency target_date).1 : Nat) : Int)))) /
          (((get_period_boundaries settings.accrual_frequency target_date).2 : Int) -
            ((get_period_boundaries settings.accrual_frequency target_date).1 : Int))) ∧
    compute_accrual_amount
      ⟨.MONTHLY, .START_OF_PERIOD, none, some 480, none, .DAYS_ACTIVE, none, []⟩
      ⟨2025, 1, 1⟩ ⟨2025, 1, 15⟩ none = 263 ∧
    (480 * 17) / (31 : Int) = 263 := by
  refine ⟨?_, by rfl, by decide⟩
  intro settings target_date ef hire hpro hyear hrate
  have hne : ¬settings.proration = ProrationMethod.NONE := by
    rw [hpro]
    intro h
    cases h
  simp only [compute_accrual_amount]
  rw [if_neg (not_le.mpr hrate), if_neg hne]
  have htot := boundaries_lt settings.accrual_frequency target_date hyear
  set ps : Nat := (get_period_boundaries settings.accrual_frequency target_date).1 with hps
  set pe : Nat := (get_period_boundaries settings.accrual_frequency target_date).2 with hpe
  have htotInt : (0 : Int) < (pe : Int) - (ps : Int) := by
    have : (ps : Int) < (pe : Int) := by exact_mod_cast htot
    omega
  rw [if_neg (not_le.mpr htotInt)]
  set A : Int := (pe : Int) - ((max ef.toOrdinal ps : Nat) : Int) with hA
  by_cases hbig : A ≥ (pe : Int) - (ps : Int)
  · rw [if_pos hbig]
    have hclamp : min ((pe : Int) - ps) (max 0 A) = (pe : Int) - ps := by omega
    rw [hclamp, Int.mul_ediv_cancel _ (by omega)]
  · rw [if_neg hbig]
    by_cases hnegA : A ≤ 0
    · rw [if_pos hnegA]
      have hclamp : min ((pe : Int) - ps) (max 0 A) = 0 := by omega
      rw [hclamp, mul_zero, Int.zero_ediv]
    · rw [if_neg hnegA]
      have hclamp : min ((pe : Int) - ps) (max 0 A) = A := by omega
      rw [hclamp]

/-- C4, witness: the general proration formula instantiated at the
spec's scenario S3 (MONTHLY 480, assignment effective 2025-01-15,
trigger 2025-01-01). -/
theorem C4_days_active_proration_witness :
    compute_accrual_amount
      ⟨.MONTHLY, .START_OF_PERIOD, none, some 480, none, .DAYS_ACTIVE, none, []⟩
      ⟨2025, 1, 1⟩ ⟨2025, 1, 15⟩ none =
      resolve_accrual_rate
          ⟨.MONTHLY, .START_OF_PERIOD, none, some 480, none, .DAYS_ACTIVE, none, []⟩
          none ⟨2025, 1, 15⟩ ⟨2025, 1, 1⟩ *
        (min
          (((get_period_boundaries .MONTHLY ⟨2025, 1, 1⟩).2 : Int) -
            ((get_period_boundaries .MONTHLY ⟨2025, 1, 1⟩).1 : Int))
          (max 0
            (((get_period_boundaries .MONTHLY ⟨2025, 1, 1⟩).2 : Int) -
              ((max (Date.toOrdinal ⟨2025, 1, 15⟩)
                (get_period_boundaries .MONTHLY ⟨2025, 1, 1⟩).1 : Nat) : Int)))) /
        (((get_period_boundaries .MONTHLY ⟨2025, 1, 1⟩).2 : Int) -
          ((get_period_boundaries .MONTHLY ⟨2025, 1, 1⟩).1 : Int)) :=
  C4_days_active_proration.1
    ⟨.MONTHLY, .START_OF_PERIOD, none, some 480, none, .DAYS_ACTIVE, none, []⟩
    ⟨2025, 1, 1⟩ ⟨2025, 1, 15⟩ none rfl (by norm_num) (by norm_num [resolve_accrual_rate])

theorem lookupSnap_setSnap_self (l : List ((Nat × Nat) × Snapshot))
    (k : Nat × Nat) (s : Snapshot) : lookupSnap (setSnap l k s) k = some s := by
  induction l with
  | nil => simp [setSnap, lookupSnap]
  | cons p rest ih =>
    rcases p with ⟨k', s'⟩
    by_cases h : k' = k
    · simp [setSnap, h, lookupSnap]
    · simp [setSnap, h, lookupSnap, ih]

theorem lookupSnap_setSnap_ne (l : List ((Nat × Nat) × Snapshot))
    (k k₀ : Nat × Nat) (s : Snapshot) (h : k₀ ≠ k) :
    lookupSnap (setSnap l k s) k₀ = lookupSnap l k₀ := by
  induction l with
  | nil =>
    simp [setSnap, lookupSnap, Ne.symm h]
  | cons p rest ih =>
    rcases p with ⟨k', s'⟩
    by_cases hk : k' = k
    · subst hk
      simp [setSnap, lookupSnap, Ne.symm h]
    · simp [setSnap, hk, lookupSnap, ih]

theorem setSnap_length_absent (l : List ((Nat × Nat) × Snapshot))
    (k : Nat × Nat) (s : Snapshot) (h : lookupSnap l k = none) :
    (setSnap l k s).length = l.length + 1 := by
  induction l with
  | nil => rfl
  | cons p rest ih =>
    rcases p with ⟨k', s'⟩
    by_cases hk : k' = k
    · rw [lookupSnap, if_pos hk] at h
      cases h
    · rw [lookupSnap, if_neg hk] at h
      simp [setSnap, hk, ih h]

theorem EngineLe_refl (st : EngineState) : EngineLe st st :=
  ⟨fun _ he => he, fun _ s h => ⟨s, h, le_refl _⟩⟩

theorem EngineLe_trans {a b c : EngineState} (hab : EngineLe a b)
    (hbc : EngineLe b c) : EngineLe a c := by
  refine ⟨fun e he => hbc.1 e (hab.1 e he), fun k s h => ?_⟩
  obtain ⟨s', h', hle⟩ := hab.2 k s h
  obtain ⟨s'', h'', hle'⟩ := hbc.2 k s' h'
  exact ⟨s'', h'', le_trans hle hle'⟩

theorem hasEntry_mono {l l' : List LedgerEntry} (h : ∀ e ∈ l, e ∈ l')
    {stype : SourceType} {sid : String} {etype : EntryType}
    (hh : hasEntry l stype sid etype = true) : hasEntry l' stype sid etype = true := by
  rw [hasEntry, List.any_eq_true] at hh ⊢
  obtain ⟨e, he, hp⟩ := hh
  exact ⟨e, h e he, hp⟩

theorem getOrCreate_noop {cid : Nat} {st : EngineState} {key : Nat × Nat}
    {s : Snapshot} (h : lookupSnap st.snapshots key = some s) :
    getOrCreateSnapshot cid st key = (s, st) := by
  rw [getOrCreateSnapshot, h]

theorem getOrCreate_ledger (cid : Nat) (st : EngineState) (key : Nat × Nat) :
    (getOrCreateSnapshot cid st key).2.ledger = st.ledger := by
  rw [getOrCreateSnapshot]
  rcases h : lookupSnap st.snapshots key with _ | s <;> rfl

theorem getOrCreate_lookup (cid : Nat) (st : EngineState) (key : Nat × Nat) :
    lookupSnap (getOrCreateSnapshot cid st key).2.snapshots key =
      some (getOrCreateSnapshot cid st key).1 := by
  rw [getOrCreateSnapshot]
  rcases h : lookupSnap st.snapshots key with _ | s
  · exact lookupSnap_setSnap_self _ _ _
  · exact h

theorem getOrCreate_le (cid : Nat) (st : EngineState) (key : Nat × Nat) :
    EngineLe st (getOrCreateSnapshot cid st key).2 := by
  rw [getOrCreateSnapshot]
  rcases h : lookupSnap st.snapshots key with _ | s
  · refine ⟨fun e he => he, fun k s' hk => ⟨s', ?_, le_refl _⟩⟩
    have hne : k ≠ key := by
      intro he
      rw [he, h] at hk
      cases hk
    rw [lookupSnap_setSnap_ne _ _ _ _ hne]
    exact hk
  · exact EngineLe_refl st

theorem apply_bank_cap_nonpos_mono {a a' amount : Int} (cap : Option Int)
    (hpos : 0 < amount) (h : apply_bank_cap a amount cap ≤ 0) (hle : a ≤ a') :
    apply_bank_cap a' amount cap ≤ 0 := by
  rcases cap with _ | c
  · rw [apply_bank_cap] at h ⊢
    omega
  · rw [apply_bank_cap] at h ⊢
    split_ifs at h ⊢ <;> omega

theorem hasEntry_append_self (l : List LedgerEntry) (e : LedgerEntry) :
    hasEntry (l ++ [e]) e.source_type e.source_id e.entry_type = true := by
  rw [hasEntry, List.any_eq_true]
  exact ⟨e, List.mem_append_right _ (List.mem_singleton.mpr rfl), by simp⟩

theorem post_le (cid : Nat) (cap : Option Int) (eid pid : Nat) (amount : Int)
    (stype : SourceType) (sid : String) (st : EngineState) :
    EngineLe st (post_accrual_entry cid cap eid pid amount stype sid st).2 := by
  rw [post_accrual_entry]
  have hg := getOrCreate_le cid st (eid, pid)
  have hl := getOrCreate_lookup cid st (eid, pid)
  set g := getOrCreateSnapshot cid st (eid, pid) with hgdef
  by_cases hc : apply_bank_cap g.1.accrued_minutes amount cap ≤ 0
  · rw [if_pos hc]
    exact hg
  · rw [if_neg hc]
    by_cases hd : hasEntry g.2.ledger stype sid .ACCRUAL = true
    · rw [if_pos hd]
      exact hg
    · rw [if_neg hd]
      refine EngineLe_trans hg ⟨fun e he => List.mem_append_left _ he, ?_⟩
      intro k s hk
      by_cases hkey : k = (eid, pid)
      · subst hkey
        rw [hl] at hk
        cases hk
        refine ⟨accrualSnapshotUpdate
          (apply_bank_cap g.1.accrued_minutes amount cap) g.1, ?_, ?_⟩
        · exact lookupSnap_setSnap_self _ _ _
        · show g.1.accrued_minutes ≤
            g.1.accrued_minutes + apply_bank_cap g.1.accrued_minutes amount cap
          omega
      · rw [lookupSnap_setSnap_ne _ _ _ _ hkey]
        exact ⟨s, hk, le_refl _⟩

theorem post_after (cid : Nat) (cap : Option Int) (eid pid : Nat) (amount : Int)
    (stype : SourceType) (sid : String) (st : EngineState) :
    ∃ snap',
      lookupSnap (post_accrual_entry cid cap eid pid amount stype sid st).2.snapshots
          (eid, pid) = some snap' ∧
      (apply_bank_cap snap'.accrued_minutes amount cap ≤ 0 ∨
        hasEntry (post_accrual_entry cid cap eid pid amount stype sid st).2.ledger
          stype sid .ACCRUAL = true) := by
  rw [post_accrual_entry]
  have hl := getOrCreate_lookup cid st (eid, pid)
  set g := getOrCreateSnapshot cid st (eid, pid) with hgdef
  by_cases hc : apply_bank_cap g.1.accrued_minutes amount cap ≤ 0
  · rw [if_pos hc]
    exact ⟨g.1, hl, Or.inl hc⟩
  · rw [if_neg hc]
    by_cases hd : hasEntry g.2.ledger stype sid .ACCRUAL = true
    · rw [if_pos hd]
      exact ⟨g.1, hl, Or.inr hd⟩
    · rw [if_neg hd]
      refine ⟨accrualSnapshotUpdate
        (apply_bank_cap g.1.accrued_minutes amount cap) g.1,
        lookupSnap_setSnap_self _ _ _, Or.inr ?_⟩
      exact hasEntry_append_self g.2.ledger
        ⟨cid, eid, pid, .ACCRUAL, _, stype, sid, none⟩

theorem post_noop {cid : Nat} {cap : Option Int} {eid pid : Nat} {amount : Int}
    {stype : SourceType} {sid : String} {st : EngineState} {snap : Snapshot}
    (hl : lookupSnap st.snapshots (eid, pid) = some snap)
    (h : apply_bank_cap snap.accrued_minutes amount cap ≤ 0 ∨
      hasEntry st.ledger stype sid .ACCRUAL = true) :
    post_accrual_entry cid cap eid pid amount stype sid st = (none, st) := by
  rw [post_accrual_entry, getOrCreate_noop hl]
  rcases h with hc | hd
  · rw [if_pos hc]
  · by_cases hc : apply_bank_cap snap.accrued_minutes amount cap ≤ 0
    · rw [if_pos hc]
    · rw [if_neg hc, if_pos hd]

theorem post_noop_inv {cid : Nat} {cap : Option Int} {eid pid : Nat}
    {amount : Int} {stype : SourceType} {sid : String} {st : EngineState}
    (h : (post_accrual_entry cid cap eid pid amount stype sid st).2 = st) :
    ∃ snap, lookupSnap st.snapshots (eid, pid) = some snap ∧
      (apply_bank_cap snap.accrued_minutes amount cap ≤ 0 ∨
        hasEntry st.ledger stype sid .ACCRUAL = true) := by
  have hsub := post_after cid cap eid pid amount stype sid st
  rw [h] at hsub
  exact hsub

theorem applyPayrollStep_le (cid : Nat) (runId : String) (st : EngineState)
    (stp : PayrollStep) : EngineLe st (applyPayrollStep cid runId st stp) := by
  rcases hset : stp.settings with _ | s
  · simp only [applyPayrollStep, hset]
    exact EngineLe_refl st
  · simp only [applyPayrollStep, hset]
    by_cases hamt : compute_hours_worked_accrual s stp.worked_minutes ≤ 0
    · rw [if_pos hamt]
      exact EngineLe_refl st
    · rw [if_neg hamt]
      exact post_le _ _ _ _ _ _ _ _

theorem applyPayrollStep_done (cid : Nat) (runId : String) (st : EngineState)
    (stp : PayrollStep) :
    applyPayrollStep cid runId (applyPayrollStep cid runId st stp) stp =
      applyPayrollStep cid runId st stp := by
  rcases hset : stp.settings with _ | s
  · simp only [applyPayrollStep, hset]
  · simp only [applyPayrollStep, hset]
    by_cases hamt : compute_hours_worked_accrual s stp.worked_minutes ≤ 0
    · simp only [if_pos hamt]
    · simp only [if_neg hamt]
      obtain ⟨snap', hlk, hcond⟩ := post_after cid s.bank_cap_minutes
        stp.employee_id stp.policy_id (compute_hours_worked_accrual s stp.worked_minutes)
        .PAYROLL (build_payroll_source_id runId stp.employee_id stp.policy_id) st
      rw [post_noop hlk hcond]

theorem applyPayrollStep_noop_mono (cid : Nat) (runId : String)
    (stp : PayrollStep) {st st' : EngineState}
    (hno : applyPayrollStep cid runId st stp = st) (hle : EngineLe st st') :
    applyPayrollStep cid runId st' stp = st' := by
  rcases hset : stp.settings with _ | s
  · simp only [applyPayrollStep, hset]
  · simp only [applyPayrollStep, hset] at hno ⊢
    by_cases hamt : compute_hours_worked_accrual s stp.worked_minutes ≤ 0
    · rw [if_pos hamt]
    · rw [if_neg hamt] at hno ⊢
      obtain ⟨snap, hlk, hcond⟩ := post_noop_inv hno
      obtain ⟨snap', hlk', hacc⟩ := hle.2 _ snap hlk
      have hcond' : apply_bank_cap snap'.accrued_minutes
          (compute_hours_worked_accrual s stp.worked_minutes) s.bank_cap_minutes ≤ 0 ∨
          hasEntry st'.ledger .PAYROLL
            (build_payroll_source_id runId stp.employee_id stp.policy_id)
            .ACCRUAL = true := by
        rcases hcond with hc | hd
        · exact Or.inl (apply_bank_cap_nonpos_mono _ (by omega) hc hacc)
        · exact Or.inr (hasEntry_mono hle.1 hd)
      rw [post_noop hlk' hcond']

theorem process_cons (cid : Nat) (runId : String) (stp : PayrollStep)
    (rest : List PayrollStep) (st : EngineState) :
    process_payroll_event cid runId (stp :: rest) st =
      process_payroll_event cid runId rest (applyPayrollStep cid runId st stp) := rfl

theorem process_le (cid : Nat) (runId : String) (steps : List PayrollStep)
    (st : EngineState) : EngineLe st (process_payroll_event cid runId steps st) := by
  induction steps generalizing st with
  | nil => exact EngineLe_refl st
  | cons stp rest ih =>
    exact EngineLe_trans (applyPayrollStep_le cid runId st stp) (ih _)

theorem process_noop (cid : Nat) (runId : String) (steps : List PayrollStep)
    {st : EngineState}
    (h : ∀ stp ∈ steps, applyPayrollStep cid runId st stp = st) :
    process_payroll_event cid runId steps st = st := by
  induction steps with
  | nil => rfl
  | cons stp rest ih =>
    rw [process_cons, h stp (List.mem_cons_self _ _)]
    exact ih fun p hp => h p (List.mem_cons_of_mem _ hp)

theorem process_all_done (cid : Nat) (runId : String) (steps : List PayrollStep)
    (st : EngineState) :
    ∀ stp ∈ steps,
      applyPayrollStep cid runId (process_payroll_event cid runId steps st) stp =
        process_payroll_event cid runId steps st := by
  induction steps generalizing st with
  | nil =>
    intro stp h
    cases h
  | cons s0 rest ih =>
    intro stp hmem
    rw [process_cons]
    rcases List.mem_cons.mp hmem with rfl | hr
    · exact applyPayrollStep_noop_mono cid runId stp
        (applyPayrollStep_done cid runId st stp) (process_le cid runId rest _)
    · exact ih _ stp hr

theorem process_idempotent (cid : Nat) (runId : String) (steps : List PayrollStep)
    (st : EngineState) :
    process_payroll_event cid runId steps (process_payroll_event cid runId steps st) =
      process_payroll_event cid runId steps st :=
  process_noop cid runId steps (process_all_done cid runId steps st)

theorem process_iterate (cid : Nat) (runId : String) (steps : List PayrollStep)
    (st : EngineState) (n : Nat) (h : 1 ≤ n) :
    (process_payroll_event cid runId steps)^[n] st =
      process_payroll_event cid runId steps st := by
  induction n with
  | zero => cases h
  | succ m ih =>
    rcases Nat.eq_zero_or_pos m with rfl | hm
    · rw [Function.iterate_one]
    · rw [Function.iterate_succ_apply', ih hm, process_idempotent]

/-- C5: for every hours-worked payroll webhook, the per-(employee,
policy) accrued amount is `(worked_minutes * accrue_minutes) /
per_worked_minutes` with integer division (e.g. `4800 * 60 / 1440 =
200`), and processing the same payload `n ≥ 1` times yields exactly the
same database state — the same snapshot table and the same ledger-row
count — as processing it once: replay with the same `payroll_run_id`
posts no new entries. -/
theorem C5_payroll_ratio_and_idempotent_replay :
    (∀ (s : HWSettings) (worked_minutes : Int),
      compute_hours_worked_accrual s worked_minutes =
        worked_minutes * s.accrue_minutes / s.per_worked_minutes) ∧
    compute_hours_worked_accrual ⟨60, 1440, none⟩ 4800 = 200 ∧
    (∀ (cid : Nat) (runId : String) (steps : List PayrollStep)
      (st : EngineState) (n : Nat), 1 ≤ n →
      (process_payroll_event cid runId steps)^[n] st =
        process_payroll_event cid runId steps st ∧
      ((process_payroll_event cid runId steps)^[n] st).ledger.length =
        (process_payroll_event cid runId steps st).ledger.length) := by
  refine ⟨fun _ _ => rfl, by decide, ?_⟩
  intro cid runId steps st n hn
  have h := process_iterate cid runId steps st n hn
  exact ⟨h, by rw [h]⟩

/-- C5, witness: a one-entry payload processed twice equals processing it
once, starting from the empty database. -/
theorem C5_payroll_ratio_and_idempotent_replay_witness :
    (process_payroll_event 1 "run1" [⟨2, 4800, 3, some ⟨60, 1440, none⟩⟩])^[2]
        ⟨[], []⟩ =
      process_payroll_event 1 "run1" [⟨2, 4800, 3, some ⟨60, 1440, none⟩⟩] ⟨[], []⟩ ∧
    ((process_payroll_event 1 "run1" [⟨2, 4800, 3, some ⟨60, 1440, none⟩⟩])^[2]
        ⟨[], []⟩).ledger.length =
      (process_payroll_event 1 "run1" [⟨2, 4800, 3, some ⟨60, 1440, none⟩⟩]
        ⟨[], []⟩).ledger.length :=
  C5_payroll_ratio_and_idempotent_replay.2.2 1 "run1"
    [⟨2, 4800, 3, some ⟨60, 1440, none⟩⟩] ⟨[], []⟩ 2 (by decide)

theorem hasEntry_append_singleton (l : List LedgerEntry) (e : LedgerEntry)
    (stype : SourceType) (sid : String) (etype : EntryType) :
    hasEntry (l ++ [e]) stype sid etype =
      (hasEntry l stype sid etype ||
        decide (e.source_type = stype ∧ e.source_id = sid ∧ e.entry_type = etype)) := by
  rw [hasEntry, hasEntry, List.any_append]
  simp [List.any]

theorem post_ledger_entry_fresh {ledger : List LedgerEntry} {sid : String}
    {etype : EntryType} (cid eid pid : Nat) (amount : Int)
    (meta : Option EntryMeta)
    (h : hasEntry ledger .SYSTEM sid etype = false) :
    post_ledger_entry cid eid pid etype amount sid meta ledger =
      (some ⟨cid, eid, pid, etype, amount, .SYSTEM, sid, meta⟩,
       ledger ++ [⟨cid, eid, pid, etype, amount, .SYSTEM, sid, meta⟩]) := by
  rw [post_ledger_entry, if_neg (by simp [h])]

/-- C6: the carryover engine is a no-op unless the target date is
January 1, on which it processes each assignment with the prior year as
`year_processed`; an assignment without enabled carryover is untouched;
one with `available ≤ 0` is skipped entirely (no ledger rows); otherwise
with `carry = min(available, cap)` (all of `available` when cap is null)
it posts an EXPIRATION of `−(available − carry)` exactly when that excess
is positive, and always posts the zero-amount CARRYOVER marker keyed by
the prior year and carrying `carried_minutes = carry`. -/
theorem C6_carryover_engine :
    (∀ (target : Date) (rows : List CarryRow) (st : EngineState),
      ¬(target.month = 1 ∧ target.day = 1) →
      run_carryover_processing target rows st = st) ∧
    (∀ (target : Date) (rows : List CarryRow) (st : EngineState),
      target.month = 1 → target.day = 1 →
      run_carryover_processing target rows st =
        rows.foldl (carryoverAssignmentStep (target.year - 1)) st) ∧
    (∀ (year : Nat) (st : EngineState) (row : CarryRow),
      (row.carryover = none ∨
        ∃ co, row.carryover = some co ∧ co.enabled = false) →
      carryoverAssignmentStep year st row = st) ∧
    (∀ (year : Nat) (st : EngineState) (row : CarryRow) (co : CarryoverSettings),
      row.carryover = some co → co.enabled = true →
      snapAvailable (getOrCreateSnapshot row.company_id st
        (row.employee_id, row.policy_id)).1 ≤ 0 →
      (carryoverAssignmentStep year st row).ledger = st.ledger) ∧
    (∀ (year : Nat) (st : EngineState) (row : CarryRow) (co : CarryoverSettings),
      row.carryover = some co → co.enabled = true →
      0 < snapAvailable (getOrCreateSnapshot row.company_id st
        (row.employee_id, row.policy_id)).1 →
      hasEntry st.ledger .SYSTEM
        (carryover_expiration_source_id row.policy_id row.employee_id year)
        .EXPIRATION = false →
      hasEntry st.ledger .SYSTEM
        (carryover_marker_source_id row.policy_id row.employee_id year)
        .CARRYOVER = false →
      ((0 < snapAvailable (getOrCreateSnapshot row.company_id st
          (row.employee_id, row.policy_id)).1 -
          carryAmount co (snapAvailable (getOrCreateSnapshot row.company_id st
            (row.employee_id, row.policy_id)).1) →
        (carryoverAssignmentStep year st row).ledger =
          st.ledger ++
            [⟨row.company_id, row.employee_id, row.policy_id, .EXPIRATION,
              -(snapAvailable (getOrCreateSnapshot row.company_id st
                  (row.employee_id, row.policy_id)).1 -
                carryAmount co (snapAvailable (getOrCreateSnapshot row.company_id st
                  (row.employee_id, row.policy_id)).1)),
              .SYSTEM,
              carryover_expiration_source_id row.policy_id row.employee_id year,
              none⟩,
             ⟨row.company_id, row.employee_id, row.policy_id, .CARRYOVER, 0,
              .SYSTEM,
              carryover_marker_source_id row.policy_id row.employee_id year,
              some ⟨carryAmount co (snapAvailable (getOrCreateSnapshot
                row.company_id st (row.employee_id, row.policy_id)).1)⟩⟩] ∧
        lookupSnap (carryoverAssignmentStep year st row).snapshots
            (row.employee_id, row.policy_id) =
          some (expirationSnapshotUpdate
            (snapAvailable (getOrCreateSnapshot row.company_id st
                (row.employee_id, row.policy_id)).1 -
              carryAmount co (snapAvailable (getOrCreateSnapshot row.company_id st
                (row.employee_id, row.policy_id)).1))
            (getOrCreateSnapshot row.company_id st
              (row.employee_id, row.policy_id)).1)) ∧
      (snapAvailable (getOrCreateSnapshot row.company_id st
          (row.employee_id, row.policy_id)).1 -
          carryAmount co (snapAvailable (getOrCreateSnapshot row.company_id st
            (row.employee_id, row.policy_id)).1) ≤ 0 →
        (carryoverAssignmentStep year st row).ledger =
          st.ledger ++
            [⟨row.company_id, row.employee_id, row.policy_id, .CARRYOVER, 0,
              .SYSTEM,
              carryover_marker_source_id row.policy_id row.employee_id year,
              some ⟨carryAmount co (snapAvailable (getOrCreateSnapshot
                row.company_id st (row.employee_id, row.policy_id)).1)⟩⟩] ∧
        (carryoverAssignmentStep year st row).snapshots =
          (getOrCreateSnapshot row.company_id st
            (row.employee_id, row.policy_id)).2.snapshots))) := by
  refine ⟨?_, ?_, ?_, ?_, ?_⟩
  · intro target rows st h
    rw [run_carryover_processing, if_pos (by tauto)]
  · intro target rows st h1 h2
    rw [run_carryover_processing, if_neg (by simp [h1, h2])]
  · intro year st row h
    rcases h with hnone | ⟨co, hsome, henf⟩
    · simp only [carryoverAssignmentStep, hnone]
    · simp only [carryoverAssignmentStep, hsome, henf, if_pos]
  · intro year st row co hco hen hle
    simp only [carryoverAssignmentStep, hco]
    rw [if_neg (by simp [hen]), if_pos hle]
    exact getOrCreate_ledger _ _ _
  · intro year st row co hco hen havail hf1 hf2
    simp only [carryoverAssignmentStep, hco]
    rw [if_neg (by simp [hen]), if_neg (not_le.mpr havail)]
    have hled := getOrCreate_ledger row.company_id st (row.employee_id, row.policy_id)
    rw [hled]
    constructor
    · intro hexp
      rw [if_pos hexp]
      rw [post_ledger_entry_fresh row.company_id row.employee_id row.policy_id _ _ hf1]
      dsimp only
      have hf2' : hasEntry
          (st.ledger ++
            [⟨row.company_id, row.employee_id, row.policy_id, .EXPIRATION,
              -(snapAvailable (getOrCreateSnapshot row.company_id st
                  (row.employee_id, row.policy_id)).1 -
                carryAmount co (snapAvailable (getOrCreateSnapshot row.company_id st
                  (row.employee_id, row.policy_id)).1)),
              .SYSTEM,
              carryover_expiration_source_id row.policy_id row.employee_id year,
              none⟩])
          .SYSTEM (carryover_marker_source_id row.policy_id row.employee_id year)
          .CARRYOVER = false := by
        rw [hasEntry_append_singleton, hf2]
        simp
      rw [post_ledger_entry_fresh row.company_id row.employee_id row.policy_id _ _ hf2']
      dsimp only
      refine ⟨?_, lookupSnap_setSnap_self _ _ _⟩
      rw [List.append_assoc]
      rfl
    · intro hexp
      rw [if_neg (not_lt.mpr hexp), hled]
      rw [post_ledger_entry_fresh row.company_id row.employee_id row.policy_id _ _ hf2]
      dsimp only
      exact ⟨rfl, rfl⟩

/-- C6, witness: an assignment with available 2000 and cap 960 processed
on a fresh ledger posts an EXPIRATION of −1040 and the zero-amount marker
carrying 960, leaving the snapshot at 960. -/
theorem C6_carryover_engine_witness :
    (carryoverAssignmentStep 2025 ⟨[], [((2, 3), ⟨2000, 0, 0, 2000, 1⟩)]⟩
        ⟨1, 2, 3, some ⟨true, some 960, some 90⟩⟩).ledger =
      [⟨1, 2, 3, .EXPIRATION, -1040, .SYSTEM, "carryover:3:2:2025", none⟩,
       ⟨1, 2, 3, .CARRYOVER, 0, .SYSTEM, "carryover_marker:3:2:2025", some ⟨960⟩⟩] ∧
    lookupSnap (carryoverAssignmentStep 2025
        ⟨[], [((2, 3), ⟨2000, 0, 0, 2000, 1⟩)]⟩
        ⟨1, 2, 3, some ⟨true, some 960, some 90⟩⟩).snapshots (2, 3) =
      some ⟨960, 0, 0, 960, 2⟩ := by
  have h := (C6_carryover_engine.2.2.2.2 2025
    ⟨[], [((2, 3), ⟨2000, 0, 0, 2000, 1⟩)]⟩
    ⟨1, 2, 3, some ⟨true, some 960, some 90⟩⟩ ⟨true, some 960, some 90⟩
    rfl rfl (by decide) rfl rfl).1 (by decide)
  exact ⟨h.1.trans (by decide), h.2.trans (by decide)⟩

/-- C9, counterexample: the claim asserts that after any expiration
operation the snapshot satisfies `available_minutes ≥ 0`.  On a snapshot
already at `available = -10` (reachable via an `allow_negative` hold),
the calendar-date expiration skips — `available ≤ 0` — and leaves the
snapshot unchanged at `-10 < 0`. -/
theorem C9_counterexample :
    lookupSnap (process_calendar_expiration 1 2 3 ⟨2025, 6, 30⟩
        ⟨[], [((2, 3), ⟨0, 0, 10, -10, 1⟩)]⟩).snapshots (2, 3) =
      some ⟨0, 0, 10, -10, 1⟩ ∧
    (-10 : Int) < 0 := by
  exact ⟨by decide, by decide⟩

/-- C9, amended: neither expiration path ever drives the snapshot
negative: either the run leaves the database unchanged (so a pre-existing
negative available stays as it was), or it posts an expiration and the
updated snapshot has `available_minutes ≥ 0` — the calendar path expires
exactly the positive available balance, leaving it 0, and the
post-carryover path expires `min(carried_minutes, max(available, 0))`. -/
theorem C9_expiration_never_drives_negative :
    (∀ (cid eid pid : Nat) (d : Date) (st : EngineState),
      process_calendar_expiration cid eid pid d st =
          (getOrCreateSnapshot cid st (eid, pid)).2 ∨
      (0 < snapAvailable (getOrCreateSnapshot cid st (eid, pid)).1 ∧
        lookupSnap (process_calendar_expiration cid eid pid d st).snapshots
            (eid, pid) =
          some (expirationSnapshotUpdate
            (snapAvailable (getOrCreateSnapshot cid st (eid, pid)).1)
            (getOrCreateSnapshot cid st (eid, pid)).1) ∧
        (expirationSnapshotUpdate
            (snapAvailable (getOrCreateSnapshot cid st (eid, pid)).1)
            (getOrCreateSnapshot cid st (eid, pid)).1).available_minutes = 0 ∧
        (process_calendar_expiration cid eid pid d st).ledger =
          st.ledger ++ [⟨cid, eid, pid, .EXPIRATION,
            -(snapAvailable (getOrCreateSnapshot cid st (eid, pid)).1),
            .SYSTEM, calendar_expiration_source_id pid eid d, none⟩])) ∧
    (∀ (cid eid pid : Nat) (d : Date) (year : Nat) (st : EngineState),
      process_carryover_expiration cid eid pid d year st = st ∨
      process_carryover_expiration cid eid pid d year st =
        (getOrCreateSnapshot cid st (eid, pid)).2 ∨
      (∃ carried, 0 < carried ∧
        0 < min carried
          (max (snapAvailable (getOrCreateSnapshot cid st (eid, pid)).1) 0) ∧
        lookupSnap (process_carryover_expiration cid eid pid d year st).snapshots
            (eid, pid) =
          some (expirationSnapshotUpdate
            (min carried
              (max (snapAvailable (getOrCreateSnapshot cid st (eid, pid)).1) 0))
            (getOrCreateSnapshot cid st (eid, pid)).1) ∧
        0 ≤ (expirationSnapshotUpdate
            (min carried
              (max (snapAvailable (getOrCreateSnapshot cid st (eid, pid)).1) 0))
            (getOrCreateSnapshot cid st (eid, pid)).1).available_minutes)) := by
  constructor
  · intro cid eid pid d st
    simp only [process_calendar_expiration]
    by_cases hav : snapAvailable (getOrCreateSnapshot cid st (eid, pid)).1 ≤ 0
    · rw [if_pos hav]
      exact Or.inl rfl
    · rw [if_neg hav]
      by_cases hdup : hasEntry (getOrCreateSnapshot cid st (eid, pid)).2.ledger
          .SYSTEM (calendar_expiration_source_id pid eid d) .EXPIRATION = true
      · rw [post_ledger_entry, if_pos hdup]
        dsimp only
        exact Or.inl rfl
      · rw [Bool.not_eq_true] at hdup
        rw [post_ledger_entry_fresh cid eid pid _ _ hdup]
        dsimp only
        refine Or.inr ⟨not_le.mp hav, lookupSnap_setSnap_self _ _ _, ?_, ?_⟩
        · simp only [expirationSnapshotUpdate, snapAvailable]
          ring
        · rw [getOrCreate_ledger]
  · intro cid eid pid d year st
    simp only [process_carryover_expiration]
    rcases hm : findCarryoverMarker st.ledger
        (carryover_marker_source_id pid eid year) with _ | marker
    · simp only [hm]
      exact Or.inl (by trivial)
    · simp only [hm]
      rcases hmeta : marker.metadata_json with _ | meta
      · simp only [hmeta]
        exact Or.inl (by trivial)
      · simp only [hmeta]
        by_cases hc : meta.carried_minutes ≤ 0
        · rw [if_pos hc]
          exact Or.inl rfl
        · rw [if_neg hc]
          by_cases hexp : min meta.carried_minutes
              (max (snapAvailable (getOrCreateSnapshot cid st (eid, pid)).1) 0) ≤ 0
          · rw [if_pos hexp]
            exact Or.inr (Or.inl rfl)
          · rw [if_neg hexp]
            by_cases hdup : hasEntry (getOrCreateSnapshot cid st (eid, pid)).2.ledger
                .SYSTEM (carryover_expiry_source_id pid eid year) .EXPIRATION = true
            · rw [post_ledger_entry, if_pos hdup]
              dsimp only
              exact Or.inr (Or.inl rfl)
            · rw [Bool.not_eq_true] at hdup
              rw [post_ledger_entry_fresh cid eid pid _ _ hdup]
              dsimp only
              refine Or.inr (Or.inr ⟨meta.carried_minutes, not_le.mp hc,
                not_le.mp hexp, lookupSnap_setSnap_self _ _ _, ?_⟩)
              rw [not_le] at hexp
              simp only [expirationSnapshotUpdate, snapAvailable] at hexp ⊢
              omega

end PowerPTO
